import Mathlib

/-!
# OAuth cookie-secret bootstrap of the automotive-dev-operator

A shallow embedding of

* `internal/common/secrets/oauth.go` (`EnsureOAuthSecrets`, `generateRandomSecret`), and
* `cmd/init-secrets/main.go` (`main`, `ensureOAuthSecret`, `generateRandomSecret`),

followed by the properties proved about them.

Conventions of the embedding.

* A Go `error` is a value of `GoError`; `nil` is the absence of one.
* A Go map is an association list with unique keys (`GoMap`); the `nil` map and the
  empty map are both `[]`.
* `[]byte` is a list of byte values (`Nat`, each below 256); a Go `string` is a `String`.
* `crypto/rand` is an explicit entropy state: the byte stream it would deliver and the
  outcome script of the coming `Read` calls. A failing read returns the error of the
  source (Go up to 1.23); the section on toolchains runs the same text where it ends the
  process instead (Go 1.24 and later).
* `client.Client` (the library) and the typed clientset (the command) are records of
  three state-passing functions over an arbitrary store state; every call the program
  issues is appended to a trace.
* A run-time panic (an index out of range) is an outcome of its own, `none` for the
  generator and `Return.panic` for the orchestrator.
* Logging and the `context.Context` argument have no effect on the store, the entropy
  source or the value returned, and are left out.
-/

/-! ## Go values -/

/-- Go `error` values: an error made by a collaborator (the store or the entropy source),
tagged with whether the store classifies it as "not found", or an error built by
`fmt.Errorf` with one `%w` verb at the end of its format. -/
inductive GoError where
  | base (notFound : Bool) (msg : String)
  | wrap (text : String) (inner : GoError)
deriving DecidableEq, Repr

namespace GoError

/-- The method `Error()`: the message of an error. -/
def Error : GoError → String
  | base _ msg => msg
  | wrap text inner => text ++ inner.Error

/-- The function `errors.Unwrap`. -/
def Unwrap : GoError → Option GoError
  | base _ _ => none
  | wrap _ inner => some inner

end GoError

/-- The function `errors.IsNotFound` of `k8s.io/apimachinery/pkg/api/errors` on a non-nil
error: the classification of the innermost error of the chain. -/
def IsNotFound : GoError → Bool
  | .base notFound _ => notFound
  | .wrap _ inner => IsNotFound inner

/-- The call `fmt.Errorf(format, name, err)` for the formats of this program, which all
have the shape `"<lead>%s: %w"`. -/
def Errorf (lead name : String) (err : GoError) : GoError :=
  .wrap (lead ++ name ++ ": ") err

/-- A Go map with string keys. -/
abbrev GoMap (V : Type) := List (String × V)

/-- The two-valued map read `v, ok := m[k]`. -/
def GoMap.lookup {V : Type} (m : GoMap V) (k : String) : Option V :=
  match m with
  | [] => none
  | (k', v) :: rest => if k' = k then some v else GoMap.lookup rest k

/-- The map write `m[k] = v`. -/
def GoMap.store {V : Type} (m : GoMap V) (k : String) (v : V) : GoMap V :=
  match m with
  | [] => [(k, v)]
  | (k', v') :: rest => if k' = k then (k, v) :: rest else (k', v') :: GoMap.store rest k v

/-! ## `crypto/rand` -/

/-- The state of the entropy source: `stream i` is the `i`-th byte it would deliver next
(reduced to a byte on delivery), `faults` scripts the coming `Read` calls, `some err` for a
call that fails with `err`; calls beyond the script succeed. -/
structure Entropy where
  stream : Nat → Nat
  faults : List (Option GoError)

namespace rand

/-- The bytes a successful `Read` of `n` bytes delivers. -/
def bytes (e : Entropy) (n : Nat) : List Nat :=
  (List.range n).map fun i => e.stream i % 256

/-- The entropy state after a successful `Read` of `n` bytes. -/
def advance (e : Entropy) (n : Nat) : Entropy :=
  { stream := fun i => e.stream (i + n), faults := e.faults.tail }

/-- The function `rand.Read` on a buffer of `n` bytes: it fills the whole buffer or fails
with the error of the source, as `crypto/rand.Read` does up to Go 1.23 (`rand.ReadOn`
below covers the toolchains from Go 1.24 on, where a failing read ends the process). -/
def Read (e : Entropy) (n : Nat) : Entropy × Except GoError (List Nat) :=
  match e.faults with
  | some err :: rest => ({ e with faults := rest }, .error err)
  | _ => (advance e n, .ok (bytes e n))

end rand

/-! ## `corev1.Secret` and `client.Client` -/

namespace corev1

/-- The fields of `corev1.Secret` the program reads or writes. -/
structure Secret where
  Name : String
  Namespace : String
  Labels : GoMap String
  SecretType : String
  Data : GoMap (List Nat)
  StringData : GoMap String
deriving DecidableEq, Repr

/-- The constant `corev1.SecretTypeOpaque`. -/
def SecretTypeOpaque : String := "Opaque"

end corev1

namespace client

/-- The three methods of `client.Client` the program calls, as state-passing functions
over a store state `σ`. `Get` is given the namespace and the name and yields the object
or an error; `Create` and `Update` yield `none` for a nil error. Nothing is assumed of
what a method does to the store. -/
structure Client (σ : Type) where
  Get : σ → String → String → σ × Except GoError corev1.Secret
  Create : σ → corev1.Secret → σ × Option GoError
  Update : σ → corev1.Secret → σ × Option GoError

/-- A call issued to the client. -/
inductive Call where
  | get (ns name : String)
  | create (obj : corev1.Secret)
  | update (obj : corev1.Secret)
deriving DecidableEq, Repr

end client

namespace kubernetes

/-- The three methods of `clientset.CoreV1().Secrets(namespace)` the command calls, as
state-passing functions over a store state `σ`: each is given the namespace of the
request first, then the name (`Get`) or the object (`Create`, `Update`). The object a
successful `Create` or `Update` returns is dropped, as the command drops it. -/
structure Clientset (σ : Type) where
  Get : σ → String → String → σ × Except GoError corev1.Secret
  Create : σ → String → corev1.Secret → σ × Option GoError
  Update : σ → String → corev1.Secret → σ × Option GoError

/-- A call issued to the clientset, with the namespace of the request. -/
inductive Call where
  | get (ns name : String)
  | create (ns : String) (obj : corev1.Secret)
  | update (ns : String) (obj : corev1.Secret)
deriving DecidableEq, Repr

end kubernetes

/-! ## Runs -/

/-- What a run has done so far: the store state, the entropy state and the calls issued
to the client, oldest first. -/
structure Run (σ : Type) where
  store : σ
  entropy : Entropy
  calls : List client.Call

/-- How a function that returns an `error` ends: it returns nil, it returns an error, or
it panics. For one iteration of a loop, `nil` stands for reaching the end of the loop
body. -/
inductive Return where
  | nil
  | error (err : GoError)
  | panic
deriving DecidableEq, Repr

/-! ## Package `secrets`: `internal/common/secrets/oauth.go` -/

namespace secrets

/-- The constant `charset` of `generateRandomSecret`. -/
def generateRandomSecret.charset : String :=
  "ABCDEFGHIJKLMNOPQRSTUVWXYZabcdefghijklmnopqrstuvwxyz0123456789-_"

/-- The loop `for i := range bytes { bytes[i] = charset[int(bytes[i])%len(charset)] }`;
`none` when an index is out of range. -/
def generateRandomSecret.translate : List Nat → Option (List Char)
  | [] => some []
  | b :: rest =>
    match generateRandomSecret.charset.toList[b % generateRandomSecret.charset.length]? with
    | none => none
    | some c => (generateRandomSecret.translate rest).map (c :: ·)

/-- The function `generateRandomSecret(length)`: the entropy state it leaves and the pair it
returns, `none` for a run-time panic. -/
def generateRandomSecret (e : Entropy) (length : Nat) :
    Entropy × Option (String × Option GoError) :=
  match rand.Read e length with
  | (e', .error err) => (e', some ("", some err))
  | (e', .ok bytes) =>
    (e', (generateRandomSecret.translate bytes).map fun cs => (String.mk cs, none))

/-- An element of the table `secrets` of `EnsureOAuthSecrets`. -/
structure Descriptor where
  name : String
  labels : GoMap String
deriving DecidableEq, Repr

/-- The table `secrets` of `EnsureOAuthSecrets`. -/
def EnsureOAuthSecrets.secrets : List Descriptor :=
  [ { name := "ado-webui-oauth-proxy",
      labels := [("app.kubernetes.io/name", "ado-webui"),
                 ("app.kubernetes.io/part-of", "automotive-dev-operator")] },
    { name := "ado-build-api-oauth-proxy",
      labels := [("app.kubernetes.io/name", "automotive-dev-operator"),
                 ("app.kubernetes.io/component", "build-api")] } ]

/-- The condition `!ok || len(cookieSecret) == 0` on `secret.Data["cookie-secret"]`. -/
def EnsureOAuthSecrets.unset (secret : corev1.Secret) : Bool :=
  match GoMap.lookup secret.Data "cookie-secret" with
  | none => true
  | some cookieSecret => cookieSecret.length == 0

/-- The object built in the create branch (lines 51-61). -/
def EnsureOAuthSecrets.newSecret (ns : String) (s : Descriptor) (cookieSecret : String) :
    corev1.Secret :=
  { Name := s.name, Namespace := ns, Labels := s.labels,
    SecretType := corev1.SecretTypeOpaque, Data := [],
    StringData := [("cookie-secret", cookieSecret)] }

/-- The object passed to `Update` in the repair branch (lines 76-79): the object read, with
`StringData["cookie-secret"]` set. -/
def EnsureOAuthSecrets.withCookie (secret : corev1.Secret) (newCookieSecret : String) :
    corev1.Secret :=
  { secret with StringData := GoMap.store secret.StringData "cookie-secret" newCookieSecret }

/-- The body of the loop `for _, s := range secrets` of `EnsureOAuthSecrets` (lines 41-88). -/
def EnsureOAuthSecrets.body {σ : Type} (c : client.Client σ) (ns : String) (s : Descriptor)
    (r : Run σ) : Run σ × Return :=
  match c.Get r.store ns s.name with
  | (st, .error err) =>
    let calls := r.calls ++ [client.Call.get ns s.name]
    if IsNotFound err then
      match generateRandomSecret r.entropy 32 with
      | (e, none) => (⟨st, e, calls⟩, .panic)
      | (e, some (_, some gerr)) =>
        (⟨st, e, calls⟩, .error (Errorf "failed to generate cookie secret for " s.name gerr))
      | (e, some (cookieSecret, none)) =>
        let secret := EnsureOAuthSecrets.newSecret ns s cookieSecret
        match c.Create st secret with
        | (st', some cerr) =>
          (⟨st', e, calls ++ [client.Call.create secret]⟩,
            .error (Errorf "failed to create secret " s.name cerr))
        | (st', none) => (⟨st', e, calls ++ [client.Call.create secret]⟩, .nil)
    else
      (⟨st, r.entropy, calls⟩, .error (Errorf "failed to get secret " s.name err))
  | (st, .ok secret) =>
    let calls := r.calls ++ [client.Call.get ns s.name]
    if EnsureOAuthSecrets.unset secret then
      match generateRandomSecret r.entropy 32 with
      | (e, none) => (⟨st, e, calls⟩, .panic)
      | (e, some (_, some gerr)) =>
        (⟨st, e, calls⟩, .error (Errorf "failed to generate cookie secret for " s.name gerr))
      | (e, some (newCookieSecret, none)) =>
        let secret' := EnsureOAuthSecrets.withCookie secret newCookieSecret
        match c.Update st secret' with
        | (st', some uerr) =>
          (⟨st', e, calls ++ [client.Call.update secret']⟩,
            .error (Errorf "failed to update secret " s.name uerr))
        | (st', none) => (⟨st', e, calls ++ [client.Call.update secret']⟩, .nil)
    else
      (⟨st, r.entropy, calls⟩, .nil)

/-- The loop `for _, s := range secrets` of `EnsureOAuthSecrets`: an iteration that
returns or panics ends the loop. -/
def EnsureOAuthSecrets.loop {σ : Type} (c : client.Client σ) (ns : String) :
    List Descriptor → Run σ → Run σ × Return
  | [], r => (r, .nil)
  | s :: rest, r =>
    match EnsureOAuthSecrets.body c ns s r with
    | (r', .nil) => EnsureOAuthSecrets.loop c ns rest r'
    | (r', ret) => (r', ret)

/-- The function `EnsureOAuthSecrets(ctx, c, namespace)`, run on a store state and an
entropy state. -/
def EnsureOAuthSecrets {σ : Type} (c : client.Client σ) (ns : String) (store : σ)
    (entropy : Entropy) : Run σ × Return :=
  EnsureOAuthSecrets.loop c ns EnsureOAuthSecrets.secrets ⟨store, entropy, []⟩

end secrets

/-! ## Package `main`: `cmd/init-secrets/main.go` -/

set_option linter.dupNamespace false

namespace main

/-- The constant `charset` of `generateRandomSecret`. -/
def generateRandomSecret.charset : String :=
  "ABCDEFGHIJKLMNOPQRSTUVWXYZabcdefghijklmnopqrstuvwxyz0123456789-_"

/-- The loop `for i := range bytes { bytes[i] = charset[int(bytes[i])%len(charset)] }`;
`none` when an index is out of range. -/
def generateRandomSecret.translate : List Nat → Option (List Char)
  | [] => some []
  | b :: rest =>
    match generateRandomSecret.charset.toList[b % generateRandomSecret.charset.length]? with
    | none => none
    | some c => (generateRandomSecret.translate rest).map (c :: ·)

/-- The function `generateRandomSecret(length)`: the entropy state it leaves and the pair it
returns, `none` for a run-time panic. -/
def generateRandomSecret (e : Entropy) (length : Nat) :
    Entropy × Option (String × Option GoError) :=
  match rand.Read e length with
  | (e', .error err) => (e', some ("", some err))
  | (e', .ok bytes) =>
    (e', (generateRandomSecret.translate bytes).map fun cs => (String.mk cs, none))

/-- What a run of the command has done so far: the store state, the entropy state and
the calls issued to the clientset, oldest first. -/
structure Run (σ : Type) where
  store : σ
  entropy : Entropy
  calls : List kubernetes.Call

/-- The function `ensureOAuthSecret(ctx, clientset, namespace, secretName)` (lines 81-133). -/
def ensureOAuthSecret {σ : Type} (clientset : kubernetes.Clientset σ)
    (ns secretName : String) (r : Run σ) : Run σ × Return :=
  match clientset.Get r.store ns secretName with
  | (st, .error err) =>
    let calls := r.calls ++ [kubernetes.Call.get ns secretName]
    if !IsNotFound err then
      (⟨st, r.entropy, calls⟩, .error (.wrap "failed to get secret: " err))
    else
      match generateRandomSecret r.entropy 32 with
      | (e, none) => (⟨st, e, calls⟩, .panic)
      | (e, some (_, some gerr)) =>
        (⟨st, e, calls⟩, .error (.wrap "failed to generate cookie secret: " gerr))
      | (e, some (cookieSecret, none)) =>
        let secret : corev1.Secret :=
          { Name := secretName, Namespace := ns, Labels := [],
            SecretType := corev1.SecretTypeOpaque, Data := [],
            StringData := [("cookie-secret", cookieSecret)] }
        match clientset.Create st ns secret with
        | (st', some cerr) =>
          (⟨st', e, calls ++ [kubernetes.Call.create ns secret]⟩,
            .error (.wrap "failed to create secret: " cerr))
        | (st', none) => (⟨st', e, calls ++ [kubernetes.Call.create ns secret]⟩, .nil)
  | (st, .ok secret) =>
    let calls := r.calls ++ [kubernetes.Call.get ns secretName]
    if (match GoMap.lookup secret.Data "cookie-secret" with
        | none => true
        | some cookieSecret => cookieSecret.length == 0) then
      match generateRandomSecret r.entropy 32 with
      | (e, none) => (⟨st, e, calls⟩, .panic)
      | (e, some (_, some gerr)) =>
        (⟨st, e, calls⟩, .error (.wrap "failed to generate cookie secret: " gerr))
      | (e, some (newCookieSecret, none)) =>
        let secret' : corev1.Secret :=
          { secret with
            StringData := GoMap.store secret.StringData "cookie-secret" newCookieSecret }
        match clientset.Update st ns secret' with
        | (st', some uerr) =>
          (⟨st', e, calls ++ [kubernetes.Call.update ns secret']⟩,
            .error (.wrap "failed to update secret: " uerr))
        | (st', none) => (⟨st', e, calls ++ [kubernetes.Call.update ns secret']⟩, .nil)
    else
      (⟨st, r.entropy, calls⟩, .nil)

/-- The slice `secretsToEnsure` of `main`. -/
def main.secretsToEnsure : List String :=
  ["ado-webui-oauth-proxy", "ado-build-api-oauth-proxy"]

/-- The variable `namespace` of `main` when the clientset is made (lines 39-54): the value
of the flag `--namespace`, `none` when the flag is not given, replaced by the value of the
environment variable `POD_NAMESPACE` when that is not empty (`os.Getenv` gives `""` for a
variable that is not set). -/
def main.namespaceOf (flag : Option String) (podNamespace : String) : String :=
  let ns := flag.getD "automotive-dev-operator-system"
  if podNamespace ≠ "" then podNamespace else ns

/-- The loop `for _, secretName := range secretsToEnsure` of `main` (lines 70-76): the
first failure ends the process with `os.Exit(1)`. -/
def main.loop {σ : Type} (clientset : kubernetes.Clientset σ) (ns : String) :
    List String → Run σ → Run σ × Return
  | [], r => (r, .nil)
  | secretName :: rest, r =>
    match ensureOAuthSecret clientset ns secretName r with
    | (r', .nil) => main.loop clientset ns rest r'
    | (r', ret) => (r', ret)

/-- The function `main` from the flag and environment on: the run it leaves and its exit
status, 0 when it returns and 1 for `os.Exit(1)`; `none` for a panic. `newForConfig` is
the outcome of `kubernetes.NewForConfig`. -/
def main {σ : Type} (flag : Option String) (podNamespace : String)
    (newForConfig : Except GoError (kubernetes.Clientset σ)) (store : σ)
    (entropy : Entropy) : Run σ × Option Nat :=
  match newForConfig with
  | .error _ => (⟨store, entropy, []⟩, some 1)
  | .ok clientset =>
    match main.loop clientset (main.namespaceOf flag podNamespace) main.secretsToEnsure
        ⟨store, entropy, []⟩ with
    | (r, .nil) => (r, some 0)
    | (r, .error _) => (r, some 1)
    | (r, .panic) => (r, none)

end main

/-! ## The Secret store -/

namespace apiserver

/-- The conversion `[]byte(s)`: the bytes of a string, its UTF-8 encoding. -/
def bytesOf (s : String) : List Nat :=
  (s.toList.flatMap String.utf8EncodeChar).map UInt8.toNat

/-- Modelled from the spec: the stored object of a namespace and name, the first one in
the list. -/
def find (objs : List corev1.Secret) (ns name : String) : Option corev1.Secret :=
  match objs with
  | [] => none
  | o :: rest => if o.Namespace = ns ∧ o.Name = name then some o else find rest ns name

/-- Modelled from the spec: the stored objects with `obj` in the place of the object of its
namespace and name, or added when there is none. -/
def put (objs : List corev1.Secret) (obj : corev1.Secret) : List corev1.Secret :=
  match objs with
  | [] => [obj]
  | o :: rest =>
    if o.Namespace = obj.Namespace ∧ o.Name = obj.Name then obj :: rest else o :: put rest obj

/-- Modelled from the spec: what the store keeps of an object written to it. A stored Secret
carries `data` only (section 6) and a Secret created with a token holds it under
`data["cookie-secret"]` (section 4.2); `StringData`, the field the program writes, is the
write-only input form of `Data` of `corev1.Secret`: on a write all its keys and values are
merged into `Data`, overwriting existing values, and it is never read back. -/
def persisted (obj : corev1.Secret) : corev1.Secret :=
  { obj with
    Data := obj.StringData.foldr (fun kv data => GoMap.store data kv.1 (bytesOf kv.2)) obj.Data
    StringData := [] }

/-- Modelled from the spec: the state of the external Secret store of sections 4.3 and 6,
which is not code of this repository. `objects` are the Secrets it holds, at most one per
namespace and name; `pending` scripts the coming calls, `some msg` for a call the store
fails with an error other than "not found" (authorization, network, conflict); calls
beyond the script are answered from `objects`. -/
structure Cluster where
  objects : List corev1.Secret
  pending : List (Option String)
deriving DecidableEq, Repr

/-- Modelled from the spec: `get(name, namespace) -> Secret | NotFoundError | other error`. -/
def Get (cl : Cluster) (ns name : String) : Cluster × Except GoError corev1.Secret :=
  match cl.pending with
  | some msg :: rest => ({ cl with pending := rest }, .error (.base false msg))
  | _ =>
    match find cl.objects ns name with
    | some obj => ({ cl with pending := cl.pending.tail }, .ok obj)
    | none =>
      ({ cl with pending := cl.pending.tail },
        .error (.base true ("secret " ++ name ++ " not found")))

/-- Modelled from the spec: `Create(Secret)` fails if the resource already exists or on a
communication or authorization failure; otherwise the object is stored as written. -/
def Create (cl : Cluster) (obj : corev1.Secret) : Cluster × Option GoError :=
  match cl.pending with
  | some msg :: rest => ({ cl with pending := rest }, some (.base false msg))
  | _ =>
    match find cl.objects obj.Namespace obj.Name with
    | some _ =>
      ({ cl with pending := cl.pending.tail },
        some (.base false ("secret " ++ obj.Name ++ " already exists")))
    | none =>
      ({ objects := put cl.objects (persisted obj), pending := cl.pending.tail }, none)

/-- Modelled from the spec: `Update(Secret)` replaces the full resource; it fails on a
conflict or communication failure, and when there is no such resource. -/
def Update (cl : Cluster) (obj : corev1.Secret) : Cluster × Option GoError :=
  match cl.pending with
  | some msg :: rest => ({ cl with pending := rest }, some (.base false msg))
  | _ =>
    match find cl.objects obj.Namespace obj.Name with
    | some _ =>
      ({ objects := put cl.objects (persisted obj), pending := cl.pending.tail }, none)
    | none =>
      ({ cl with pending := cl.pending.tail },
        some (.base true ("secret " ++ obj.Name ++ " not found")))

/-- Modelled from the spec: the Secret store as a `client.Client`. -/
def client : client.Client Cluster :=
  { Get := Get, Create := Create, Update := Update }

/-- Modelled from the spec: the same Secret store behind the typed clientset. A write whose
object names another namespace than the request is refused and changes nothing. -/
def clientset : kubernetes.Clientset Cluster :=
  { Get := Get
    Create := fun cl ns obj =>
      if obj.Namespace = ns then Create cl obj
      else ({ cl with pending := cl.pending.tail },
        some (.base false "the namespace of the object does not match the request"))
    Update := fun cl ns obj =>
      if obj.Namespace = ns then Update cl obj
      else ({ cl with pending := cl.pending.tail },
        some (.base false "the namespace of the object does not match the request")) }

end apiserver

/-! ## The entropy source across toolchains

Up to Go 1.23 `crypto/rand.Read` returns the error of a source that cannot supply the
bytes, which is what `rand.Read` above does. From Go 1.24 on it never returns an error: it
ends the process with a fatal error. The definitions of this section run the same program
text under either behaviour. -/

namespace rand

/-- What `crypto/rand.Read` does when the source cannot supply the bytes: it returns the
error (up to Go 1.23) or it ends the process (from Go 1.24 on). -/
inductive Toolchain where
  | returnsError
  | endsProcess
deriving DecidableEq, Repr

/-- The function `rand.Read` on a buffer of `n` bytes under a toolchain; `none` when the
process is ended. A buffer of length 0 is filled without reading the source. -/
def ReadOn (t : Toolchain) (e : Entropy) (n : Nat) :
    Entropy × Option (Except GoError (List Nat)) :=
  if n = 0 then (e, some (.ok []))
  else
    match Read e n with
    | (e', .ok bs) => (e', some (.ok bs))
    | (e', .error err) =>
      match t with
      | .returnsError => (e', some (.error err))
      | .endsProcess => (e', none)

end rand

namespace secrets

/-- The function `generateRandomSecret(length)` under a toolchain: the entropy state it
leaves and the pair it returns, `none` when it does not return (the process is ended by
`rand.Read`, or an index is out of range). -/
def generateRandomSecretOn (t : rand.Toolchain) (e : Entropy) (length : Nat) :
    Entropy × Option (String × Option GoError) :=
  match rand.ReadOn t e length with
  | (e', none) => (e', none)
  | (e', some (.error err)) => (e', some ("", some err))
  | (e', some (.ok bytes)) =>
    (e', (generateRandomSecret.translate bytes).map fun cs => (String.mk cs, none))

/-- The body of the loop of `EnsureOAuthSecrets` (lines 41-88) under a toolchain;
`Return.panic` stands for a run in which the function does not return. -/
def EnsureOAuthSecrets.bodyOn {σ : Type} (t : rand.Toolchain) (c : client.Client σ)
    (ns : String) (s : Descriptor) (r : Run σ) : Run σ × Return :=
  match c.Get r.store ns s.name with
  | (st, .error err) =>
    let calls := r.calls ++ [client.Call.get ns s.name]
    if IsNotFound err then
      match generateRandomSecretOn t r.entropy 32 with
      | (e, none) => (⟨st, e, calls⟩, .panic)
      | (e, some (_, some gerr)) =>
        (⟨st, e, calls⟩, .error (Errorf "failed to generate cookie secret for " s.name gerr))
      | (e, some (cookieSecret, none)) =>
        let secret := EnsureOAuthSecrets.newSecret ns s cookieSecret
        match c.Create st secret with
        | (st', some cerr) =>
          (⟨st', e, calls ++ [client.Call.create secret]⟩,
            .error (Errorf "failed to create secret " s.name cerr))
        | (st', none) => (⟨st', e, calls ++ [client.Call.create secret]⟩, .nil)
    else
      (⟨st, r.entropy, calls⟩, .error (Errorf "failed to get secret " s.name err))
  | (st, .ok secret) =>
    let calls := r.calls ++ [client.Call.get ns s.name]
    if EnsureOAuthSecrets.unset secret then
      match generateRandomSecretOn t r.entropy 32 with
      | (e, none) => (⟨st, e, calls⟩, .panic)
      | (e, some (_, some gerr)) =>
        (⟨st, e, calls⟩, .error (Errorf "failed to generate cookie secret for " s.name gerr))
      | (e, some (newCookieSecret, none)) =>
        let secret' := EnsureOAuthSecrets.withCookie secret newCookieSecret
        match c.Update st secret' with
        | (st', some uerr) =>
          (⟨st', e, calls ++ [client.Call.update secret']⟩,
            .error (Errorf "failed to update secret " s.name uerr))
        | (st', none) => (⟨st', e, calls ++ [client.Call.update secret']⟩, .nil)
    else
      (⟨st, r.entropy, calls⟩, .nil)

/-- The loop `for _, s := range secrets` of `EnsureOAuthSecrets` under a toolchain: an
iteration that returns, or in which the process is ended, ends the loop. -/
def EnsureOAuthSecrets.loopOn {σ : Type} (t : rand.Toolchain) (c : client.Client σ)
    (ns : String) : List Descriptor → Run σ → Run σ × Return
  | [], r => (r, .nil)
  | s :: rest, r =>
    match EnsureOAuthSecrets.bodyOn t c ns s r with
    | (r', .nil) => EnsureOAuthSecrets.loopOn t c ns rest r'
    | (r', ret) => (r', ret)

/-- The function `EnsureOAuthSecrets(ctx, c, namespace)` under a toolchain. -/
def EnsureOAuthSecretsOn {σ : Type} (t : rand.Toolchain) (c : client.Client σ)
    (ns : String) (store : σ) (entropy : Entropy) : Run σ × Return :=
  EnsureOAuthSecrets.loopOn t c ns EnsureOAuthSecrets.secrets ⟨store, entropy, []⟩

/-- How an iteration ends when the read of the entropy source fails with `gerr`: with that
error wrapped under the descriptor's name where `rand.Read` returns it, without returning
where `rand.Read` ends the process. -/
def EnsureOAuthSecrets.afterFailedRead (t : rand.Toolchain) (name : String)
    (gerr : GoError) : Return :=
  match t with
  | .returnsError => .error (Errorf "failed to generate cookie secret for " name gerr)
  | .endsProcess => .panic

end secrets

/-! ## Vocabulary of the statements -/

/-- The symbol of the alphabet at the index a byte is reduced to, `charset[b % 64]`. -/
def secrets.generateRandomSecret.symbol (b : Nat) : Char :=
  (secrets.generateRandomSecret.charset.toList[b % 64]?).getD 'A'

/-- The token `generateRandomSecret` makes of the bytes `bs`. -/
def secrets.generateRandomSecret.token (bs : List Nat) : String :=
  String.mk (bs.map secrets.generateRandomSecret.symbol)

/-- The origin of a failure while the descriptor `s` is processed from the run state `r`:
`Origin c ns s r lead cause` says that a collaborator (the store or the entropy source)
returned the error `cause` at the step whose message starts with `lead`. -/
inductive secrets.EnsureOAuthSecrets.Origin {σ : Type} (c : client.Client σ) (ns : String)
    (s : secrets.Descriptor) (r : Run σ) : String → GoError → Prop where
  | get (st : σ) (err : GoError) :
      c.Get r.store ns s.name = (st, .error err) → IsNotFound err = false →
      Origin c ns s r "failed to get secret " err
  | generateForCreate (st : σ) (nf : GoError) (e : Entropy) (err : GoError) :
      c.Get r.store ns s.name = (st, .error nf) → IsNotFound nf = true →
      rand.Read r.entropy 32 = (e, .error err) →
      Origin c ns s r "failed to generate cookie secret for " err
  | create (st st' : σ) (nf : GoError) (e : Entropy) (bs : List Nat) (err : GoError) :
      c.Get r.store ns s.name = (st, .error nf) → IsNotFound nf = true →
      rand.Read r.entropy 32 = (e, .ok bs) →
      c.Create st (secrets.EnsureOAuthSecrets.newSecret ns s
        (secrets.generateRandomSecret.token bs)) = (st', some err) →
      Origin c ns s r "failed to create secret " err
  | generateForUpdate (st : σ) (secret : corev1.Secret) (e : Entropy) (err : GoError) :
      c.Get r.store ns s.name = (st, .ok secret) →
      secrets.EnsureOAuthSecrets.unset secret = true →
      rand.Read r.entropy 32 = (e, .error err) →
      Origin c ns s r "failed to generate cookie secret for " err
  | update (st st' : σ) (secret : corev1.Secret) (e : Entropy) (bs : List Nat)
      (err : GoError) :
      c.Get r.store ns s.name = (st, .ok secret) →
      secrets.EnsureOAuthSecrets.unset secret = true →
      rand.Read r.entropy 32 = (e, .ok bs) →
      c.Update st (secrets.EnsureOAuthSecrets.withCookie secret
        (secrets.generateRandomSecret.token bs)) = (st', some err) →
      Origin c ns s r "failed to update secret " err

/-- The terminal states of the per-descriptor state machine of the specification. -/
inductive secrets.Terminal where
  | Created
  | Repaired
  | NoOp
  | FetchError
  | GenerationError
  | CreateError
  | UpdateError
deriving DecidableEq, Repr

/-- The success terminals. -/
def secrets.Terminal.success : secrets.Terminal → Bool
  | .Created => true
  | .Repaired => true
  | .NoOp => true
  | _ => false

/-- The terminal the state machine of the specification reaches for the descriptor `s`
from the run state `r`, read off the answers of the store and of the entropy source:
`Unfetched -> Fetch -> Missing | Present-Empty | Present-Set | FetchError`,
`Missing -> Create -> Created | CreateError`, `Present-Empty -> Update -> Repaired |
UpdateError`, `Present-Set -> NoOp`, and `GenerationError` when the entropy source cannot
supply the bytes. -/
def secrets.EnsureOAuthSecrets.terminal {σ : Type} (c : client.Client σ) (ns : String)
    (s : secrets.Descriptor) (r : Run σ) : secrets.Terminal :=
  match c.Get r.store ns s.name with
  | (st, .error err) =>
    if IsNotFound err then
      match rand.Read r.entropy 32 with
      | (_, .error _) => .GenerationError
      | (_, .ok bs) =>
        match c.Create st (secrets.EnsureOAuthSecrets.newSecret ns s
            (secrets.generateRandomSecret.token bs)) with
        | (_, none) => .Created
        | (_, some _) => .CreateError
    else .FetchError
  | (st, .ok secret) =>
    match GoMap.lookup secret.Data "cookie-secret" with
    | some (_ :: _) => .NoOp
    | _ =>
      match rand.Read r.entropy 32 with
      | (_, .error _) => .GenerationError
      | (_, .ok bs) =>
        match c.Update st (secrets.EnsureOAuthSecrets.withCookie secret
            (secrets.generateRandomSecret.token bs)) with
        | (_, none) => .Repaired
        | (_, some _) => .UpdateError

/-- The first descriptor of the table. -/
def secrets.webui : secrets.Descriptor :=
  { name := "ado-webui-oauth-proxy",
    labels := [("app.kubernetes.io/name", "ado-webui"),
               ("app.kubernetes.io/part-of", "automotive-dev-operator")] }

/-- The second descriptor of the table. -/
def secrets.buildapi : secrets.Descriptor :=
  { name := "ado-build-api-oauth-proxy",
    labels := [("app.kubernetes.io/name", "automotive-dev-operator"),
               ("app.kubernetes.io/component", "build-api")] }

/-- Whether a call writes the object of the given namespace and name. -/
def client.Call.writes (ns name : String) : client.Call → Bool
  | .get _ _ => false
  | .create obj => obj.Namespace = ns ∧ obj.Name = name
  | .update obj => obj.Namespace = ns ∧ obj.Name = name

/-- Whether a call is a `Create` or an `Update`. -/
def client.Call.isWrite : client.Call → Bool
  | .get _ _ => false
  | _ => true

/-- Whether the answer of the `Get` sends the iteration to a token generation: a "not
found" error (the create branch) or an object whose cookie is unset (the repair branch). -/
def secrets.EnsureOAuthSecrets.generates (got : Except GoError corev1.Secret) : Bool :=
  match got with
  | .error nf => IsNotFound nf
  | .ok secret => secrets.EnsureOAuthSecrets.unset secret

/-- What an iteration ends with after its write: the end of the body when the write
succeeded, the error of the write wrapped under `lead` and the name otherwise. -/
def secrets.EnsureOAuthSecrets.afterWrite (lead name : String) (res : Option GoError) :
    Return :=
  match res with
  | none => .nil
  | some err => .error (Errorf lead name err)

/-- Whether a call is a `Get`. -/
def client.Call.isGet : client.Call → Bool
  | .get _ _ => true
  | _ => false

/-- The namespace and name a call targets: those of the request for a `Get`, those of the
object for a `Create` or an `Update`. -/
def client.Call.target : client.Call → String × String
  | .get ns name => (ns, name)
  | .create obj => (obj.Namespace, obj.Name)
  | .update obj => (obj.Namespace, obj.Name)

/-- The namespace of the request of a call to the clientset. -/
def kubernetes.Call.ns : kubernetes.Call → String
  | .get ns _ => ns
  | .create ns _ => ns
  | .update ns _ => ns

/-- The writes the iteration for the descriptor `s` can issue from the run state `r`: the
`Create` of a new Secret of that descriptor, or the `Update` of the Secret its `Get`
returned, with a token set. -/
def secrets.EnsureOAuthSecrets.WriteOf {σ : Type} (c : client.Client σ) (ns : String)
    (s : secrets.Descriptor) (r : Run σ) (call : client.Call) : Prop :=
  (∃ token, call = .create (secrets.EnsureOAuthSecrets.newSecret ns s token))
  ∨ ∃ st secret token, c.Get r.store ns s.name = (st, .ok secret)
      ∧ call = .update (secrets.EnsureOAuthSecrets.withCookie secret token)

/-- Whether a Secret is foreign to a pass in the namespace `ns`: it is in another
namespace, or its name is none of the two names of the table. -/
def apiserver.foreign (ns : String) (obj : corev1.Secret) : Bool :=
  !(obj.Namespace = ns
    ∧ (obj.Name = "ado-webui-oauth-proxy" ∨ obj.Name = "ado-build-api-oauth-proxy"))

/-! ## The generator -/

namespace secrets

theorem charset_length : generateRandomSecret.charset.length = 64 := by decide

theorem charset_index (b : Nat) :
    generateRandomSecret.charset.toList[b % generateRandomSecret.charset.length]?
      = some (generateRandomSecret.symbol b) := by
  have key : ∀ i < 64, generateRandomSecret.charset.toList[i]?
      = some ((generateRandomSecret.charset.toList[i]?).getD 'A') := by decide
  rw [charset_length]
  exact key (b % 64) (Nat.mod_lt b (by norm_num))

theorem symbol_mem (b : Nat) :
    generateRandomSecret.symbol b ∈ generateRandomSecret.charset.toList := by
  have key : ∀ i < 64, (generateRandomSecret.charset.toList[i]?).getD 'A'
      ∈ generateRandomSecret.charset.toList := by decide
  exact key (b % 64) (Nat.mod_lt b (by norm_num))

theorem translate_eq (bs : List Nat) :
    generateRandomSecret.translate bs = some (bs.map generateRandomSecret.symbol) := by
  induction bs with
  | nil => rfl
  | cons b rest ih =>
    unfold generateRandomSecret.translate
    rw [charset_index, ih]
    rfl

theorem read_length (e e' : Entropy) (n : Nat) (bs : List Nat)
    (h : rand.Read e n = (e', .ok bs)) : bs.length = n ∧ ∀ b ∈ bs, b < 256 := by
  unfold rand.Read at h
  have hb : bs = rand.bytes e n := by
    split at h
    · cases h
    · cases h; rfl
  subst hb
  refine ⟨by simp [rand.bytes], ?_⟩
  intro b hb
  simp only [rand.bytes, List.mem_map] at hb
  obtain ⟨i, _, rfl⟩ := hb
  exact Nat.mod_lt _ (by norm_num)

theorem generate_ok (e e' : Entropy) (n : Nat) (bs : List Nat)
    (h : rand.Read e n = (e', .ok bs)) :
    generateRandomSecret e n
      = (e', some (generateRandomSecret.token bs, none)) := by
  simp [generateRandomSecret, generateRandomSecret.token, h, translate_eq]

theorem generate_fail (e e' : Entropy) (n : Nat) (err : GoError)
    (h : rand.Read e n = (e', .error err)) :
    generateRandomSecret e n = (e', some ("", some err)) := by
  simp [generateRandomSecret, h]

/-- The generator never panics: it returns a token of symbols or the empty string with the
error of the entropy source. -/
theorem generate_cases (e : Entropy) (n : Nat) :
    (∃ e' bs, rand.Read e n = (e', .ok bs) ∧ generateRandomSecret e n
        = (e', some (generateRandomSecret.token bs, none)))
    ∨ (∃ e' err, rand.Read e n = (e', .error err)
        ∧ generateRandomSecret e n = (e', some ("", some err))) := by
  rcases hr : rand.Read e n with ⟨e', res⟩
  cases res with
  | error err => exact Or.inr ⟨e', err, rfl, generate_fail e e' n err hr⟩
  | ok bs => exact Or.inl ⟨e', bs, rfl, generate_ok e e' n bs hr⟩

end secrets

namespace main

theorem translate_eq_secrets (bs : List Nat) :
    generateRandomSecret.translate bs = secrets.generateRandomSecret.translate bs := by
  induction bs with
  | nil => rfl
  | cons b rest ih =>
    simp only [generateRandomSecret.translate, secrets.generateRandomSecret.translate, ih]
    rfl

theorem generate_eq_secrets (e : Entropy) (n : Nat) :
    generateRandomSecret e n = secrets.generateRandomSecret e n := by
  simp only [generateRandomSecret, secrets.generateRandomSecret, translate_eq_secrets]

end main

/-- C5. Generator contract: whenever the entropy source supplies the `n` bytes `bs`,
`generateRandomSecret(n)` returns, with a nil error, a string of exactly `n` characters,
each a member of the charset, whose `i`-th character is `charset[bs[i] % 64]`; the copy of
the function in the command computes the same result as the one in the library, on every
entropy state. -/
theorem C5_generator_contract (e e' : Entropy) (n : Nat) (bs : List Nat)
    (h : rand.Read e n = (e', .ok bs)) :
    ∃ token : String,
      secrets.generateRandomSecret e n = (e', some (token, none))
      ∧ main.generateRandomSecret e n = (e', some (token, none))
      ∧ token.length = n
      ∧ (∀ ch ∈ token.toList, ch ∈ secrets.generateRandomSecret.charset.toList)
      ∧ (∀ i, i < n → ∃ b, bs[i]? = some b ∧
          token.toList[i]? = secrets.generateRandomSecret.charset.toList[b % 64]?)
      ∧ ∀ (e₁ : Entropy) (m : Nat),
          main.generateRandomSecret e₁ m = secrets.generateRandomSecret e₁ m := by
  obtain ⟨hlen, _⟩ := secrets.read_length e e' n bs h
  refine ⟨secrets.generateRandomSecret.token bs,
    secrets.generate_ok e e' n bs h, ?_, ?_, ?_, ?_, main.generate_eq_secrets⟩
  · rw [main.generate_eq_secrets]; exact secrets.generate_ok e e' n bs h
  · simp [secrets.generateRandomSecret.token, String.length, hlen]
  · intro ch hch
    simp only [secrets.generateRandomSecret.token, String.toList, List.mem_map] at hch
    obtain ⟨b, _, rfl⟩ := hch
    exact secrets.symbol_mem b
  · intro i hi
    have hi' : i < bs.length := by omega
    refine ⟨bs[i], List.getElem?_eq_getElem hi', ?_⟩
    have hsym := secrets.charset_index bs[i]
    rw [secrets.charset_length] at hsym
    rw [hsym]
    show (bs.map secrets.generateRandomSecret.symbol)[i]? = _
    rw [List.getElem?_map, List.getElem?_eq_getElem hi']
    rfl

/-- C5 at the entropy state that delivers the bytes 0, 1, 2, ... and never fails, for the
length 32 the program asks for. -/
theorem C5_generator_contract_witness :
    ∃ token : String,
      secrets.generateRandomSecret ⟨fun i => i, []⟩ 32
        = (rand.advance ⟨fun i => i, []⟩ 32, some (token, none))
      ∧ main.generateRandomSecret ⟨fun i => i, []⟩ 32
        = (rand.advance ⟨fun i => i, []⟩ 32, some (token, none))
      ∧ token.length = 32
      ∧ (∀ ch ∈ token.toList, ch ∈ secrets.generateRandomSecret.charset.toList)
      ∧ (∀ i, i < 32 → ∃ b, (rand.bytes ⟨fun i => i, []⟩ 32)[i]? = some b ∧
          token.toList[i]? = secrets.generateRandomSecret.charset.toList[b % 64]?)
      ∧ ∀ (e₁ : Entropy) (m : Nat),
          main.generateRandomSecret e₁ m = secrets.generateRandomSecret e₁ m :=
  C5_generator_contract ⟨fun i => i, []⟩ (rand.advance ⟨fun i => i, []⟩ 32) 32
    (rand.bytes ⟨fun i => i, []⟩ 32) rfl

/-! ## One iteration of the loop, for any client -/

namespace secrets

variable {σ : Type}

theorem secrets_eq : EnsureOAuthSecrets.secrets = [webui, buildapi] := rfl

@[simp]
theorem afterWrite_none (lead name : String) :
    EnsureOAuthSecrets.afterWrite lead name none = .nil := rfl

@[simp]
theorem afterWrite_some (lead name : String) (err : GoError) :
    EnsureOAuthSecrets.afterWrite lead name (some err) = .error (Errorf lead name err) := rfl

theorem body_fetchError (c : client.Client σ) (ns : String) (s : Descriptor) (r : Run σ)
    (st : σ) (err : GoError) (hget : c.Get r.store ns s.name = (st, .error err))
    (hnf : IsNotFound err = false) :
    EnsureOAuthSecrets.body c ns s r
      = (⟨st, r.entropy, r.calls ++ [client.Call.get ns s.name]⟩,
          .error (Errorf "failed to get secret " s.name err)) := by
  simp [EnsureOAuthSecrets.body, hget, hnf]

theorem body_missing_generationError (c : client.Client σ) (ns : String) (s : Descriptor)
    (r : Run σ) (st : σ) (nf : GoError) (e : Entropy) (err : GoError)
    (hget : c.Get r.store ns s.name = (st, .error nf)) (hnf : IsNotFound nf = true)
    (hread : rand.Read r.entropy 32 = (e, .error err)) :
    EnsureOAuthSecrets.body c ns s r
      = (⟨st, e, r.calls ++ [client.Call.get ns s.name]⟩,
          .error (Errorf "failed to generate cookie secret for " s.name err)) := by
  simp [EnsureOAuthSecrets.body, hget, hnf, generate_fail _ _ _ _ hread]

theorem body_missing_create (c : client.Client σ) (ns : String) (s : Descriptor)
    (r : Run σ) (st st' : σ) (nf : GoError) (e : Entropy) (bs : List Nat)
    (res : Option GoError)
    (hget : c.Get r.store ns s.name = (st, .error nf)) (hnf : IsNotFound nf = true)
    (hread : rand.Read r.entropy 32 = (e, .ok bs))
    (hcreate : c.Create st (EnsureOAuthSecrets.newSecret ns s (generateRandomSecret.token bs))
      = (st', res)) :
    EnsureOAuthSecrets.body c ns s r
      = (⟨st', e, r.calls ++ [client.Call.get ns s.name,
            client.Call.create
              (EnsureOAuthSecrets.newSecret ns s (generateRandomSecret.token bs))]⟩,
          EnsureOAuthSecrets.afterWrite "failed to create secret " s.name res) := by
  cases res <;>
    simp [EnsureOAuthSecrets.body, EnsureOAuthSecrets.afterWrite, hget, hnf,
      generate_ok _ _ _ _ hread, hcreate]

theorem body_present_set (c : client.Client σ) (ns : String) (s : Descriptor) (r : Run σ)
    (st : σ) (secret : corev1.Secret) (hget : c.Get r.store ns s.name = (st, .ok secret))
    (hset : EnsureOAuthSecrets.unset secret = false) :
    EnsureOAuthSecrets.body c ns s r
      = (⟨st, r.entropy, r.calls ++ [client.Call.get ns s.name]⟩, .nil) := by
  simp [EnsureOAuthSecrets.body, hget, hset]

theorem body_empty_generationError (c : client.Client σ) (ns : String) (s : Descriptor)
    (r : Run σ) (st : σ) (secret : corev1.Secret) (e : Entropy) (err : GoError)
    (hget : c.Get r.store ns s.name = (st, .ok secret))
    (hunset : EnsureOAuthSecrets.unset secret = true)
    (hread : rand.Read r.entropy 32 = (e, .error err)) :
    EnsureOAuthSecrets.body c ns s r
      = (⟨st, e, r.calls ++ [client.Call.get ns s.name]⟩,
          .error (Errorf "failed to generate cookie secret for " s.name err)) := by
  simp [EnsureOAuthSecrets.body, hget, hunset, generate_fail _ _ _ _ hread]

theorem body_empty_update (c : client.Client σ) (ns : String) (s : Descriptor)
    (r : Run σ) (st st' : σ) (secret : corev1.Secret) (e : Entropy) (bs : List Nat)
    (res : Option GoError)
    (hget : c.Get r.store ns s.name = (st, .ok secret))
    (hunset : EnsureOAuthSecrets.unset secret = true)
    (hread : rand.Read r.entropy 32 = (e, .ok bs))
    (hupdate : c.Update st (EnsureOAuthSecrets.withCookie secret (generateRandomSecret.token bs))
      = (st', res)) :
    EnsureOAuthSecrets.body c ns s r
      = (⟨st', e, r.calls ++ [client.Call.get ns s.name,
            client.Call.update
              (EnsureOAuthSecrets.withCookie secret (generateRandomSecret.token bs))]⟩,
          EnsureOAuthSecrets.afterWrite "failed to update secret " s.name res) := by
  cases res <;>
    simp [EnsureOAuthSecrets.body, EnsureOAuthSecrets.afterWrite, hget, hunset,
      generate_ok _ _ _ _ hread, hupdate]

theorem unset_iff (secret : corev1.Secret) :
    EnsureOAuthSecrets.unset secret = false
      ↔ ∃ b bs, GoMap.lookup secret.Data "cookie-secret" = some (b :: bs) := by
  unfold EnsureOAuthSecrets.unset
  cases h : GoMap.lookup secret.Data "cookie-secret" with
  | none => simp
  | some v => cases v <;> simp

/-- The pass is the first iteration followed, when that one reaches its end, by the second. -/
theorem ensure_unfold (c : client.Client σ) (ns : String) (st : σ) (e : Entropy) :
    EnsureOAuthSecrets c ns st e
      = match EnsureOAuthSecrets.body c ns webui ⟨st, e, []⟩ with
        | (r, .nil) => EnsureOAuthSecrets.body c ns buildapi r
        | (r, ret) => (r, ret) := by
  unfold EnsureOAuthSecrets
  rw [secrets_eq]
  simp only [EnsureOAuthSecrets.loop]
  rcases h1 : EnsureOAuthSecrets.body c ns webui ⟨st, e, []⟩ with ⟨r1, ret1⟩
  cases ret1 with
  | nil =>
    simp only []
    rcases h2 : EnsureOAuthSecrets.body c ns buildapi r1 with ⟨r2, ret2⟩
    cases ret2 <;> rfl
  | error err => rfl
  | panic => rfl

end secrets

namespace secrets

variable {σ : Type}

/-- The six paths through one iteration: every run of the loop body takes exactly the
path its collaborators' answers select. -/
theorem body_cases (c : client.Client σ) (ns : String) (s : Descriptor) (r : Run σ) :
    (∃ st err, c.Get r.store ns s.name = (st, .error err) ∧ IsNotFound err = false)
    ∨ (∃ st nf e err, c.Get r.store ns s.name = (st, .error nf) ∧ IsNotFound nf = true
        ∧ rand.Read r.entropy 32 = (e, .error err))
    ∨ (∃ st nf e bs st' res, c.Get r.store ns s.name = (st, .error nf)
        ∧ IsNotFound nf = true ∧ rand.Read r.entropy 32 = (e, .ok bs)
        ∧ c.Create st (EnsureOAuthSecrets.newSecret ns s (generateRandomSecret.token bs))
            = (st', res))
    ∨ (∃ st secret, c.Get r.store ns s.name = (st, .ok secret)
        ∧ EnsureOAuthSecrets.unset secret = false)
    ∨ (∃ st secret e err, c.Get r.store ns s.name = (st, .ok secret)
        ∧ EnsureOAuthSecrets.unset secret = true ∧ rand.Read r.entropy 32 = (e, .error err))
    ∨ (∃ st secret e bs st' res, c.Get r.store ns s.name = (st, .ok secret)
        ∧ EnsureOAuthSecrets.unset secret = true ∧ rand.Read r.entropy 32 = (e, .ok bs)
        ∧ c.Update st (EnsureOAuthSecrets.withCookie secret (generateRandomSecret.token bs))
            = (st', res)) := by
  rcases hget : c.Get r.store ns s.name with ⟨st, got⟩
  rcases hread : rand.Read r.entropy 32 with ⟨e, rd⟩
  cases got with
  | error err =>
    cases hnf : IsNotFound err with
    | false => exact Or.inl ⟨st, err, rfl, hnf⟩
    | true =>
      cases rd with
      | error gerr => exact Or.inr (Or.inl ⟨st, err, e, gerr, rfl, hnf, rfl⟩)
      | ok bs =>
        rcases hc : c.Create st
          (EnsureOAuthSecrets.newSecret ns s (generateRandomSecret.token bs)) with ⟨st', res⟩
        exact Or.inr (Or.inr (Or.inl ⟨st, err, e, bs, st', res, rfl, hnf, rfl, hc⟩))
  | ok secret =>
    cases hun : EnsureOAuthSecrets.unset secret with
    | false => exact Or.inr (Or.inr (Or.inr (Or.inl ⟨st, secret, rfl, hun⟩)))
    | true =>
      cases rd with
      | error gerr =>
        exact Or.inr (Or.inr (Or.inr (Or.inr (Or.inl ⟨st, secret, e, gerr, rfl, hun, rfl⟩))))
      | ok bs =>
        rcases hu : c.Update st
          (EnsureOAuthSecrets.withCookie secret (generateRandomSecret.token bs)) with ⟨st', res⟩
        exact Or.inr (Or.inr (Or.inr (Or.inr (Or.inr
          ⟨st, secret, e, bs, st', res, rfl, hun, rfl, hu⟩))))

/-- An iteration never panics. -/
theorem body_ne_panic (c : client.Client σ) (ns : String) (s : Descriptor) (r : Run σ) :
    (EnsureOAuthSecrets.body c ns s r).2 ≠ .panic := by
  rcases body_cases c ns s r with
    ⟨st, err, hget, hnf⟩ | ⟨st, nf, e, err, hget, hnf, hread⟩
    | ⟨st, nf, e, bs, st', res, hget, hnf, hread, hc⟩ | ⟨st, secret, hget, hset⟩
    | ⟨st, secret, e, err, hget, hun, hread⟩
    | ⟨st, secret, e, bs, st', res, hget, hun, hread, hu⟩
  · simp [body_fetchError c ns s r st err hget hnf]
  · simp [body_missing_generationError c ns s r st nf e err hget hnf hread]
  · rw [body_missing_create c ns s r st st' nf e bs res hget hnf hread hc]
    cases res <;> simp
  · simp [body_present_set c ns s r st secret hget hset]
  · simp [body_empty_generationError c ns s r st secret e err hget hun hread]
  · rw [body_empty_update c ns s r st st' secret e bs res hget hun hread hu]
    cases res <;> simp

/-- An iteration returns an error exactly when a collaborator returned one, and the error
it returns is that one wrapped under the step's message and the descriptor's name. -/
theorem body_error_iff (c : client.Client σ) (ns : String) (s : Descriptor) (r : Run σ)
    (err : GoError) :
    (EnsureOAuthSecrets.body c ns s r).2 = .error err
      ↔ ∃ lead cause, EnsureOAuthSecrets.Origin c ns s r lead cause
          ∧ err = Errorf lead s.name cause := by
  constructor
  · intro h
    rcases body_cases c ns s r with
      ⟨st, g, hget, hnf⟩ | ⟨st, nf, e, g, hget, hnf, hread⟩
      | ⟨st, nf, e, bs, st', res, hget, hnf, hread, hc⟩ | ⟨st, secret, hget, hset⟩
      | ⟨st, secret, e, g, hget, hun, hread⟩
      | ⟨st, secret, e, bs, st', res, hget, hun, hread, hu⟩
    · rw [body_fetchError c ns s r st g hget hnf] at h
      exact ⟨_, g, .get st g hget hnf, by simpa using h.symm⟩
    · rw [body_missing_generationError c ns s r st nf e g hget hnf hread] at h
      exact ⟨_, g, .generateForCreate st nf e g hget hnf hread, by simpa using h.symm⟩
    · rw [body_missing_create c ns s r st st' nf e bs res hget hnf hread hc] at h
      cases res with
      | none => simp at h
      | some g => exact ⟨_, g, .create st st' nf e bs g hget hnf hread hc, by simpa using h.symm⟩
    · rw [body_present_set c ns s r st secret hget hset] at h
      simp at h
    · rw [body_empty_generationError c ns s r st secret e g hget hun hread] at h
      exact ⟨_, g, .generateForUpdate st secret e g hget hun hread, by simpa using h.symm⟩
    · rw [body_empty_update c ns s r st st' secret e bs res hget hun hread hu] at h
      cases res with
      | none => simp at h
      | some g =>
        exact ⟨_, g, .update st st' secret e bs g hget hun hread hu, by simpa using h.symm⟩
  · rintro ⟨lead, cause, horigin, rfl⟩
    cases horigin with
    | get st _ hget hnf => rw [body_fetchError c ns s r st _ hget hnf]
    | generateForCreate st nf e _ hget hnf hread =>
      rw [body_missing_generationError c ns s r st nf e _ hget hnf hread]
    | create st st' nf e bs _ hget hnf hread hc =>
      rw [body_missing_create c ns s r st st' nf e bs _ hget hnf hread hc]
      rfl
    | generateForUpdate st secret e _ hget hun hread =>
      rw [body_empty_generationError c ns s r st secret e _ hget hun hread]
    | update st st' secret e bs _ hget hun hread hu =>
      rw [body_empty_update c ns s r st st' secret e bs _ hget hun hread hu]
      rfl

/-- An iteration reaches its end exactly when the state machine reaches a success terminal. -/
theorem body_nil_iff (c : client.Client σ) (ns : String) (s : Descriptor) (r : Run σ) :
    (EnsureOAuthSecrets.body c ns s r).2 = .nil
      ↔ (EnsureOAuthSecrets.terminal c ns s r).success = true := by
  have hlookup : ∀ secret : corev1.Secret, EnsureOAuthSecrets.unset secret = true →
      ∀ (α : Type) (x y : α),
        (match GoMap.lookup secret.Data "cookie-secret" with
          | some (_ :: _) => x
          | _ => y) = y := by
    intro secret hun α x y
    unfold EnsureOAuthSecrets.unset at hun
    cases h : GoMap.lookup secret.Data "cookie-secret" with
    | none => rfl
    | some v =>
      cases v with
      | nil => rfl
      | cons b bs => simp [h] at hun
  rcases body_cases c ns s r with
    ⟨st, g, hget, hnf⟩ | ⟨st, nf, e, g, hget, hnf, hread⟩
    | ⟨st, nf, e, bs, st', res, hget, hnf, hread, hc⟩ | ⟨st, secret, hget, hset⟩
    | ⟨st, secret, e, g, hget, hun, hread⟩
    | ⟨st, secret, e, bs, st', res, hget, hun, hread, hu⟩
  · simp [body_fetchError c ns s r st g hget hnf, EnsureOAuthSecrets.terminal, hget, hnf,
      Terminal.success]
  · simp [body_missing_generationError c ns s r st nf e g hget hnf hread,
      EnsureOAuthSecrets.terminal, hget, hnf, hread, Terminal.success]
  · rw [body_missing_create c ns s r st st' nf e bs res hget hnf hread hc]
    cases res <;> simp [EnsureOAuthSecrets.terminal, hget, hnf, hread, hc, Terminal.success]
  · obtain ⟨b, bs, hl⟩ := (unset_iff secret).1 hset
    simp [body_present_set c ns s r st secret hget hset, EnsureOAuthSecrets.terminal, hget,
      hl, Terminal.success]
  · simp [body_empty_generationError c ns s r st secret e g hget hun hread,
      EnsureOAuthSecrets.terminal, hget, hlookup secret hun, hread, Terminal.success]
  · rw [body_empty_update c ns s r st st' secret e bs res hget hun hread hu]
    cases res <;>
      simp [EnsureOAuthSecrets.terminal, hget, hlookup secret hun, hread, hu,
        Terminal.success]

end secrets

/-! ## The Secret store: what its calls do -/

theorem GoMap.lookup_store_same {V : Type} (m : GoMap V) (k : String) (v : V) :
    GoMap.lookup (GoMap.store m k v) k = some v := by
  induction m with
  | nil => simp [GoMap.store, GoMap.lookup]
  | cons kv rest ih =>
    obtain ⟨k', v'⟩ := kv
    by_cases h : k' = k
    · simp [GoMap.store, GoMap.lookup, h]
    · simp [GoMap.store, GoMap.lookup, h, ih]

theorem GoMap.lookup_store_other {V : Type} (m : GoMap V) (k k' : String) (v : V)
    (h : k ≠ k') : GoMap.lookup (GoMap.store m k v) k' = GoMap.lookup m k' := by
  induction m with
  | nil => simp [GoMap.store, GoMap.lookup, h]
  | cons kv rest ih =>
    obtain ⟨k₁, v₁⟩ := kv
    by_cases h₁ : k₁ = k
    · subst h₁
      simp [GoMap.store, GoMap.lookup, h]
    · by_cases h₂ : k₁ = k'
      · subst h₂
        simp [GoMap.store, GoMap.lookup, h₁]
      · simp [GoMap.store, GoMap.lookup, h₁, h₂, ih]

namespace apiserver

theorem find_key (objs : List corev1.Secret) (ns name : String) (obj : corev1.Secret)
    (h : find objs ns name = some obj) : obj.Namespace = ns ∧ obj.Name = name := by
  induction objs with
  | nil => simp [find] at h
  | cons o rest ih =>
    unfold find at h
    split at h
    · next hk => cases h; exact hk
    · exact ih h

theorem find_put_same (objs : List corev1.Secret) (obj : corev1.Secret) :
    find (put objs obj) obj.Namespace obj.Name = some obj := by
  induction objs with
  | nil => simp [put, find]
  | cons o rest ih =>
    by_cases h : o.Namespace = obj.Namespace ∧ o.Name = obj.Name
    · simp [put, find, h]
    · simp [put, find, h, ih]

theorem find_put_other (objs : List corev1.Secret) (obj : corev1.Secret) (ns name : String)
    (h : ¬ (obj.Namespace = ns ∧ obj.Name = name)) :
    find (put objs obj) ns name = find objs ns name := by
  induction objs with
  | nil => simp [put, find, h]
  | cons o rest ih =>
    by_cases h₁ : o.Namespace = obj.Namespace ∧ o.Name = obj.Name
    · have h₂ : ¬ (o.Namespace = ns ∧ o.Name = name) := by
        rw [h₁.1, h₁.2]; exact h
      simp [put, find, h, h₁, h₂]
    · by_cases h₂ : o.Namespace = ns ∧ o.Name = name
      · obtain ⟨rfl, rfl⟩ := h₂
        simp [put, find, h₁]
      · simp [put, find, h₁, h₂, ih]

/-- The data of a stored object: a key of `StringData` holds the bytes of its string, any
other key what `Data` held. -/
theorem persisted_lookup (obj : corev1.Secret) (k : String) :
    GoMap.lookup (persisted obj).Data k
      = match GoMap.lookup obj.StringData k with
        | some v => some (bytesOf v)
        | none => GoMap.lookup obj.Data k := by
  unfold persisted
  simp only []
  induction obj.StringData with
  | nil => simp [GoMap.lookup]
  | cons kv rest ih =>
    obtain ⟨k₁, v₁⟩ := kv
    by_cases h : k₁ = k
    · subst h
      simp [GoMap.lookup, GoMap.lookup_store_same]
    · simp [GoMap.lookup, h, GoMap.lookup_store_other _ _ _ _ h, ih]

theorem persisted_key (obj : corev1.Secret) :
    (persisted obj).Namespace = obj.Namespace ∧ (persisted obj).Name = obj.Name := ⟨rfl, rfl⟩

theorem bytesOf_symbols (cs : List Char)
    (h : ∀ ch ∈ cs, ch ∈ secrets.generateRandomSecret.charset.toList) :
    bytesOf (String.mk cs) = cs.map Char.toNat := by
  have key : ∀ ch ∈ secrets.generateRandomSecret.charset.toList,
      (String.utf8EncodeChar ch).map UInt8.toNat = [ch.toNat] := by decide
  induction cs with
  | nil => rfl
  | cons ch rest ih =>
    have hrest := ih (fun x hx => h x (List.mem_cons_of_mem _ hx))
    have hch := key ch (h ch (List.mem_cons_self _ _))
    unfold bytesOf at hrest ⊢
    simp only [String.toList, List.flatMap_cons, List.map_append, List.map_cons] at hrest ⊢
    rw [hch, hrest]
    rfl

/-- The bytes of a generated token: one byte per symbol. -/
theorem bytesOf_token (bs : List Nat) :
    bytesOf (secrets.generateRandomSecret.token bs)
      = bs.map fun b => (secrets.generateRandomSecret.symbol b).toNat := by
  unfold secrets.generateRandomSecret.token
  rw [bytesOf_symbols]
  · simp
  · intro ch hch
    simp only [List.mem_map] at hch
    obtain ⟨b, _, rfl⟩ := hch
    exact secrets.symbol_mem b

end apiserver

namespace apiserver

theorem get_objects (cl cl' : Cluster) (ns name : String) (res : Except GoError corev1.Secret)
    (h : Get cl ns name = (cl', res)) : cl'.objects = cl.objects := by
  unfold Get at h
  split at h
  · cases h; rfl
  · split at h <;> (cases h; rfl)

theorem get_ok (cl cl' : Cluster) (ns name : String) (obj : corev1.Secret)
    (h : Get cl ns name = (cl', .ok obj)) : find cl.objects ns name = some obj := by
  unfold Get at h
  split at h
  · cases h
  · split at h
    · next hf => cases h; exact hf
    · cases h

theorem get_notFound (cl cl' : Cluster) (ns name : String) (err : GoError)
    (h : Get cl ns name = (cl', .error err)) (hnf : IsNotFound err = true) :
    find cl.objects ns name = none := by
  unfold Get at h
  split at h
  · cases h; simp [IsNotFound] at hnf
  · split at h
    · cases h
    · next hf => exact hf

theorem get_quiet (objs : List corev1.Secret) (ns name : String) (obj : corev1.Secret)
    (h : find objs ns name = some obj) :
    Get ⟨objs, []⟩ ns name = (⟨objs, []⟩, .ok obj) := by
  simp [Get, h]

theorem create_ok (cl cl' : Cluster) (obj : corev1.Secret) (h : Create cl obj = (cl', none)) :
    cl'.objects = put cl.objects (persisted obj) := by
  unfold Create at h
  split at h
  · cases h
  · split at h
    · cases h
    · cases h; rfl

theorem create_error (cl cl' : Cluster) (obj : corev1.Secret) (err : GoError)
    (h : Create cl obj = (cl', some err)) : cl'.objects = cl.objects := by
  unfold Create at h
  split at h
  · cases h; rfl
  · split at h
    · cases h; rfl
    · cases h

theorem update_ok (cl cl' : Cluster) (obj : corev1.Secret) (h : Update cl obj = (cl', none)) :
    cl'.objects = put cl.objects (persisted obj) := by
  unfold Update at h
  split at h
  · cases h
  · split at h
    · cases h; rfl
    · cases h

theorem update_error (cl cl' : Cluster) (obj : corev1.Secret) (err : GoError)
    (h : Update cl obj = (cl', some err)) : cl'.objects = cl.objects := by
  unfold Update at h
  split at h
  · cases h; rfl
  · split at h
    · cases h
    · cases h; rfl

theorem withCookie_key (secret : corev1.Secret) (tok : String) :
    (secrets.EnsureOAuthSecrets.withCookie secret tok).Namespace = secret.Namespace
      ∧ (secrets.EnsureOAuthSecrets.withCookie secret tok).Name = secret.Name := ⟨rfl, rfl⟩

/-- The cookie of an object stored from the create branch. -/
theorem persisted_newSecret (ns : String) (s : secrets.Descriptor) (tok : String) :
    GoMap.lookup (persisted (secrets.EnsureOAuthSecrets.newSecret ns s tok)).Data
      "cookie-secret" = some (bytesOf tok) := by
  rw [persisted_lookup]
  simp [secrets.EnsureOAuthSecrets.newSecret, GoMap.lookup]

/-- The cookie of an object stored from the repair branch. -/
theorem persisted_withCookie (secret : corev1.Secret) (tok : String) :
    GoMap.lookup (persisted (secrets.EnsureOAuthSecrets.withCookie secret tok)).Data
      "cookie-secret" = some (bytesOf tok) := by
  rw [persisted_lookup]
  simp [secrets.EnsureOAuthSecrets.withCookie, GoMap.lookup_store_same]

theorem token_bytes_length (bs : List Nat) (e e' : Entropy)
    (h : rand.Read e 32 = (e', .ok bs)) :
    (bytesOf (secrets.generateRandomSecret.token bs)).length = 32 := by
  rw [bytesOf_token]
  simp [(secrets.read_length e e' 32 bs h).1]

/-- An object is ready when its `Data["cookie-secret"]` is present and not empty. -/
theorem unset_of_lookup (obj : corev1.Secret) (v : List Nat)
    (h : GoMap.lookup obj.Data "cookie-secret" = some v) (hv : v.length = 32) :
    secrets.EnsureOAuthSecrets.unset obj = false := by
  unfold secrets.EnsureOAuthSecrets.unset
  simp [h, hv]

end apiserver

/-! ## One iteration of the loop against the Secret store -/

namespace apiserver

open secrets

/-- An iteration that reaches its end did one of three things: nothing (the object was
ready), a repair (one `Update` of the object read, with the token set), or a creation (one
`Create` of a new object). -/
theorem body_nil (ns : String) (s : Descriptor) (r r' : Run Cluster)
    (h : EnsureOAuthSecrets.body client ns s r = (r', .nil)) :
    (∃ obj, find r.store.objects ns s.name = some obj
        ∧ EnsureOAuthSecrets.unset obj = false
        ∧ r'.store.objects = r.store.objects ∧ r'.entropy = r.entropy
        ∧ r'.calls = r.calls ++ [client.Call.get ns s.name])
    ∨ (∃ obj e bs, find r.store.objects ns s.name = some obj
        ∧ EnsureOAuthSecrets.unset obj = true
        ∧ rand.Read r.entropy 32 = (e, .ok bs)
        ∧ r'.store.objects = put r.store.objects
            (persisted (EnsureOAuthSecrets.withCookie obj (generateRandomSecret.token bs)))
        ∧ r'.entropy = e
        ∧ r'.calls = r.calls ++ [client.Call.get ns s.name,
            client.Call.update
              (EnsureOAuthSecrets.withCookie obj (generateRandomSecret.token bs))])
    ∨ (∃ e bs, find r.store.objects ns s.name = none
        ∧ rand.Read r.entropy 32 = (e, .ok bs)
        ∧ r'.store.objects = put r.store.objects
            (persisted (EnsureOAuthSecrets.newSecret ns s (generateRandomSecret.token bs)))
        ∧ r'.entropy = e
        ∧ r'.calls = r.calls ++ [client.Call.get ns s.name,
            client.Call.create
              (EnsureOAuthSecrets.newSecret ns s (generateRandomSecret.token bs))]) := by
  rcases body_cases client ns s r with
    ⟨st, g, hget, hnf⟩ | ⟨st, nf, e, g, hget, hnf, hread⟩
    | ⟨st, nf, e, bs, st', res, hget, hnf, hread, hc⟩ | ⟨st, secret, hget, hset⟩
    | ⟨st, secret, e, g, hget, hun, hread⟩
    | ⟨st, secret, e, bs, st', res, hget, hun, hread, hu⟩
  · rw [body_fetchError client ns s r st g hget hnf] at h
    simp at h
  · rw [body_missing_generationError client ns s r st nf e g hget hnf hread] at h
    simp at h
  · rw [body_missing_create client ns s r st st' nf e bs res hget hnf hread hc] at h
    cases res with
    | some cerr => simp at h
    | none =>
      have hr : r' = ⟨st', e, _⟩ := (congrArg Prod.fst h).symm
      subst hr
      refine Or.inr (Or.inr ⟨e, bs, get_notFound _ _ _ _ _ hget hnf, hread, ?_, rfl, rfl⟩)
      show st'.objects = _
      rw [create_ok st st' _ hc, get_objects _ _ _ _ _ hget]
  · rw [body_present_set client ns s r st secret hget hset] at h
    have hr : r' = ⟨st, r.entropy, _⟩ := (congrArg Prod.fst h).symm
    subst hr
    exact Or.inl ⟨secret, get_ok _ _ _ _ _ hget, hset, get_objects _ _ _ _ _ hget, rfl, rfl⟩
  · rw [body_empty_generationError client ns s r st secret e g hget hun hread] at h
    simp at h
  · rw [body_empty_update client ns s r st st' secret e bs res hget hun hread hu] at h
    cases res with
    | some uerr => simp at h
    | none =>
      have hr : r' = ⟨st', e, _⟩ := (congrArg Prod.fst h).symm
      subst hr
      refine Or.inr (Or.inl ⟨secret, e, bs, get_ok _ _ _ _ _ hget, hun, hread, ?_, rfl, rfl⟩)
      show st'.objects = _
      rw [update_ok st st' _ hu, get_objects _ _ _ _ _ hget]

/-- An iteration that returns an error leaves the stored objects as they were. -/
theorem body_error (ns : String) (s : Descriptor) (r r' : Run Cluster) (err : GoError)
    (h : EnsureOAuthSecrets.body client ns s r = (r', .error err)) :
    r'.store.objects = r.store.objects := by
  rcases body_cases client ns s r with
    ⟨st, g, hget, hnf⟩ | ⟨st, nf, e, g, hget, hnf, hread⟩
    | ⟨st, nf, e, bs, st', res, hget, hnf, hread, hc⟩ | ⟨st, secret, hget, hset⟩
    | ⟨st, secret, e, g, hget, hun, hread⟩
    | ⟨st, secret, e, bs, st', res, hget, hun, hread, hu⟩
  · rw [body_fetchError client ns s r st g hget hnf] at h
    have hr := (congrArg Prod.fst h).symm
    subst hr
    exact get_objects _ _ _ _ _ hget
  · rw [body_missing_generationError client ns s r st nf e g hget hnf hread] at h
    have hr := (congrArg Prod.fst h).symm
    subst hr
    exact get_objects _ _ _ _ _ hget
  · rw [body_missing_create client ns s r st st' nf e bs res hget hnf hread hc] at h
    cases res with
    | none => simp at h
    | some cerr =>
      have hr := (congrArg Prod.fst h).symm
      subst hr
      show st'.objects = _
      rw [create_error st st' _ cerr hc, get_objects _ _ _ _ _ hget]
  · rw [body_present_set client ns s r st secret hget hset] at h
    simp at h
  · rw [body_empty_generationError client ns s r st secret e g hget hun hread] at h
    have hr := (congrArg Prod.fst h).symm
    subst hr
    exact get_objects _ _ _ _ _ hget
  · rw [body_empty_update client ns s r st st' secret e bs res hget hun hread hu] at h
    cases res with
    | none => simp at h
    | some uerr =>
      have hr := (congrArg Prod.fst h).symm
      subst hr
      show st'.objects = _
      rw [update_error st st' _ uerr hu, get_objects _ _ _ _ _ hget]

/-- An iteration on a ready object issues its `Get` and nothing else, and leaves the stored
objects as they were, whether the `Get` is answered or fails. -/
theorem body_ready (ns : String) (s : Descriptor) (r : Run Cluster) (obj : corev1.Secret)
    (hfind : find r.store.objects ns s.name = some obj)
    (hset : EnsureOAuthSecrets.unset obj = false) :
    (EnsureOAuthSecrets.body client ns s r).1.store.objects = r.store.objects
      ∧ (EnsureOAuthSecrets.body client ns s r).1.calls
          = r.calls ++ [client.Call.get ns s.name]
      ∧ (EnsureOAuthSecrets.body client ns s r).1.entropy = r.entropy := by
  rcases body_cases client ns s r with
    ⟨st, g, hget, hnf⟩ | ⟨st, nf, e, g, hget, hnf, hread⟩
    | ⟨st, nf, e, bs, st', res, hget, hnf, hread, hc⟩ | ⟨st, secret, hget, hset'⟩
    | ⟨st, secret, e, g, hget, hun, hread⟩
    | ⟨st, secret, e, bs, st', res, hget, hun, hread, hu⟩
  · rw [body_fetchError client ns s r st g hget hnf]
    exact ⟨get_objects _ _ _ _ _ hget, rfl, rfl⟩
  · have := get_notFound _ _ _ _ _ hget hnf
    rw [hfind] at this; cases this
  · have := get_notFound _ _ _ _ _ hget hnf
    rw [hfind] at this; cases this
  · rw [body_present_set client ns s r st secret hget hset']
    exact ⟨get_objects _ _ _ _ _ hget, rfl, rfl⟩
  · have := get_ok _ _ _ _ _ hget
    rw [hfind] at this; cases this
    rw [hset] at hun; cases hun
  · have := get_ok _ _ _ _ _ hget
    rw [hfind] at this; cases this
    rw [hset] at hun; cases hun

end apiserver

namespace apiserver

open secrets

/-- An iteration leaves every object of another namespace or name as it was. -/
theorem body_frame (ns : String) (s : Descriptor) (r : Run Cluster) (ns' name' : String)
    (hne : ¬ (ns = ns' ∧ s.name = name')) :
    find (EnsureOAuthSecrets.body client ns s r).1.store.objects ns' name'
      = find r.store.objects ns' name' := by
  rcases hb : EnsureOAuthSecrets.body client ns s r with ⟨r', ret⟩
  cases ret with
  | panic => exact absurd (congrArg Prod.snd hb) (body_ne_panic client ns s r)
  | error err => simp only []; rw [body_error ns s r r' err hb]
  | nil =>
    simp only []
    rcases body_nil ns s r r' hb with
      ⟨obj, _, _, hobjs, _, _⟩ | ⟨obj, e, bs, hfind, _, _, hobjs, _, _⟩
      | ⟨e, bs, _, _, hobjs, _, _⟩
    · rw [hobjs]
    · rw [hobjs]
      apply find_put_other
      have hk := find_key _ _ _ _ hfind
      show ¬ (obj.Namespace = ns' ∧ obj.Name = name')
      rw [hk.1, hk.2]
      exact hne
    · rw [hobjs]
      apply find_put_other
      exact hne

/-- The calls of an iteration: its `Get`, then at most one write, of an object of the
descriptor's name in the namespace. -/
theorem body_calls (ns : String) (s : Descriptor) (r : Run Cluster) :
    (EnsureOAuthSecrets.body client ns s r).1.calls = r.calls ++ [client.Call.get ns s.name]
    ∨ ∃ obj : corev1.Secret, obj.Namespace = ns ∧ obj.Name = s.name
        ∧ ((EnsureOAuthSecrets.body client ns s r).1.calls
              = r.calls ++ [client.Call.get ns s.name, client.Call.create obj]
          ∨ (EnsureOAuthSecrets.body client ns s r).1.calls
              = r.calls ++ [client.Call.get ns s.name, client.Call.update obj]) := by
  rcases body_cases client ns s r with
    ⟨st, g, hget, hnf⟩ | ⟨st, nf, e, g, hget, hnf, hread⟩
    | ⟨st, nf, e, bs, st', res, hget, hnf, hread, hc⟩ | ⟨st, secret, hget, hset⟩
    | ⟨st, secret, e, g, hget, hun, hread⟩
    | ⟨st, secret, e, bs, st', res, hget, hun, hread, hu⟩
  · rw [body_fetchError client ns s r st g hget hnf]; exact Or.inl rfl
  · rw [body_missing_generationError client ns s r st nf e g hget hnf hread]; exact Or.inl rfl
  · rw [body_missing_create client ns s r st st' nf e bs res hget hnf hread hc]
    exact Or.inr ⟨_, rfl, rfl, Or.inl rfl⟩
  · rw [body_present_set client ns s r st secret hget hset]; exact Or.inl rfl
  · rw [body_empty_generationError client ns s r st secret e g hget hun hread]
    exact Or.inl rfl
  · rw [body_empty_update client ns s r st st' secret e bs res hget hun hread hu]
    have hk := find_key _ _ _ _ (get_ok _ _ _ _ _ hget)
    exact Or.inr ⟨EnsureOAuthSecrets.withCookie secret (generateRandomSecret.token bs),
      hk.1, hk.2, Or.inr rfl⟩

/-- The writes an iteration issues are of the descriptor's own name. -/
theorem body_writes_other (ns : String) (s : Descriptor) (r : Run Cluster) (name' : String)
    (hne : s.name ≠ name') :
    (EnsureOAuthSecrets.body client ns s r).1.calls.filter (client.Call.writes ns name')
      = r.calls.filter (client.Call.writes ns name') := by
  rcases body_calls ns s r with h | ⟨obj, hns, hname, h | h⟩
  · rw [h]; simp [client.Call.writes]
  · rw [h]; simp [client.Call.writes, hns, hname, hne]
  · rw [h]; simp [client.Call.writes, hns, hname, hne]

/-- After an iteration that reaches its end the descriptor's object is stored with a
`Data["cookie-secret"]` that is not empty. -/
theorem body_nil_ready (ns : String) (s : Descriptor) (r r' : Run Cluster)
    (h : EnsureOAuthSecrets.body client ns s r = (r', .nil)) :
    ∃ obj value, find r'.store.objects ns s.name = some obj
      ∧ GoMap.lookup obj.Data "cookie-secret" = some value ∧ value ≠ [] := by
  rcases body_nil ns s r r' h with
    ⟨obj, hfind, hset, hobjs, _, _⟩ | ⟨obj, e, bs, hfind, _, hread, hobjs, _, _⟩
    | ⟨e, bs, _, hread, hobjs, _, _⟩
  · obtain ⟨b, bs, hl⟩ := (unset_iff obj).1 hset
    exact ⟨obj, b :: bs, by rw [hobjs]; exact hfind, hl, by simp⟩
  · have hk := find_key _ _ _ _ hfind
    refine ⟨_, _, ?_, persisted_withCookie obj (generateRandomSecret.token bs), ?_⟩
    · rw [hobjs, ← hk.1, ← hk.2]
      exact find_put_same _ _
    · intro h0
      have := token_bytes_length bs _ _ hread
      rw [h0] at this
      simp at this
  · refine ⟨_, _, ?_, persisted_newSecret ns s (generateRandomSecret.token bs), ?_⟩
    · rw [hobjs]
      exact find_put_same _ (persisted (EnsureOAuthSecrets.newSecret ns s _))
    · intro h0
      have := token_bytes_length bs _ _ hread
      rw [h0] at this
      simp at this

theorem names_ne : webui.name ≠ buildapi.name := by decide

/-- A pass that returns nil ran both iterations to their end. -/
theorem ensure_nil {σ : Type} (c : client.Client σ) (ns : String) (st : σ) (e : Entropy)
    (h : (EnsureOAuthSecrets c ns st e).2 = .nil) :
    ∃ r1, EnsureOAuthSecrets.body c ns webui ⟨st, e, []⟩ = (r1, .nil)
      ∧ EnsureOAuthSecrets.body c ns buildapi r1 = ((EnsureOAuthSecrets c ns st e).1, .nil) := by
  rw [ensure_unfold] at h ⊢
  rcases h1 : EnsureOAuthSecrets.body c ns webui ⟨st, e, []⟩ with ⟨r1, ret1⟩
  rw [h1] at h
  cases ret1 with
  | nil =>
    simp only [] at h ⊢
    exact ⟨r1, rfl, Prod.ext rfl h⟩
  | error err => simp at h
  | panic => simp at h

end apiserver

/-- C1. Completeness: for every namespace, every state of the store and every entropy
state, if `EnsureOAuthSecrets` returns nil then, for each of the two names of the table, a
`Get` of that name in that namespace on the resulting objects is answered with a Secret
whose `Data["cookie-secret"]` is present and not empty. -/
theorem C1_completeness (ns : String) (cl : apiserver.Cluster) (e : Entropy)
    (h : (secrets.EnsureOAuthSecrets apiserver.client ns cl e).2 = .nil) :
    ∀ name ∈ ["ado-webui-oauth-proxy", "ado-build-api-oauth-proxy"],
      ∃ obj value,
        apiserver.Get
            ⟨(secrets.EnsureOAuthSecrets apiserver.client ns cl e).1.store.objects, []⟩ ns name
          = (⟨(secrets.EnsureOAuthSecrets apiserver.client ns cl e).1.store.objects, []⟩,
              .ok obj)
        ∧ GoMap.lookup obj.Data "cookie-secret" = some value ∧ value ≠ [] := by
  obtain ⟨r1, h1, h2⟩ := apiserver.ensure_nil apiserver.client ns cl e h
  obtain ⟨o1, v1, hf1, hl1, hv1⟩ := apiserver.body_nil_ready ns secrets.webui _ r1 h1
  obtain ⟨o2, v2, hf2, hl2, hv2⟩ := apiserver.body_nil_ready ns secrets.buildapi r1 _ h2
  have hframe := apiserver.body_frame ns secrets.buildapi r1 ns secrets.webui.name
    (fun hk => apiserver.names_ne hk.2.symm)
  rw [h2] at hframe
  intro name hname
  simp only [List.mem_cons, List.mem_singleton, List.not_mem_nil, or_false] at hname
  rcases hname with rfl | rfl
  · exact ⟨o1, v1, apiserver.get_quiet _ _ _ _ (hframe.trans hf1), hl1, hv1⟩
  · exact ⟨o2, v2, apiserver.get_quiet _ _ _ _ hf2, hl2, hv2⟩

/-- C1 on the empty store with an entropy source that never fails, for the second name. -/
theorem C1_completeness_witness :
    (secrets.EnsureOAuthSecrets apiserver.client "ns" ⟨[], []⟩ ⟨fun i => i, []⟩).2 = .nil
    ∧ ∃ obj value,
        apiserver.Get
            ⟨(secrets.EnsureOAuthSecrets apiserver.client "ns" ⟨[], []⟩
                ⟨fun i => i, []⟩).1.store.objects, []⟩ "ns" "ado-build-api-oauth-proxy"
          = (⟨(secrets.EnsureOAuthSecrets apiserver.client "ns" ⟨[], []⟩
                ⟨fun i => i, []⟩).1.store.objects, []⟩, .ok obj)
        ∧ GoMap.lookup obj.Data "cookie-secret" = some value ∧ value ≠ [] :=
  ⟨by decide,
    C1_completeness "ns" ⟨[], []⟩ ⟨fun i => i, []⟩ (by decide) "ado-build-api-oauth-proxy"
      (by simp)⟩

namespace secrets

/-- The run state a pass ends in is the one its first iteration leaves, or the one its
second iteration leaves when run from there. -/
theorem ensure_run {σ : Type} (c : client.Client σ) (ns : String) (st : σ) (e : Entropy) :
    (EnsureOAuthSecrets c ns st e).1 = (EnsureOAuthSecrets.body c ns webui ⟨st, e, []⟩).1
    ∨ (EnsureOAuthSecrets c ns st e).1
        = (EnsureOAuthSecrets.body c ns buildapi
            (EnsureOAuthSecrets.body c ns webui ⟨st, e, []⟩).1).1 := by
  rw [ensure_unfold]
  rcases h1 : EnsureOAuthSecrets.body c ns webui ⟨st, e, []⟩ with ⟨r1, ret1⟩
  cases ret1 with
  | nil => exact Or.inr rfl
  | error err => exact Or.inl rfl
  | panic => exact Or.inl rfl

theorem mem_secrets (s : Descriptor) (hs : s ∈ EnsureOAuthSecrets.secrets) :
    s = webui ∨ s = buildapi := by
  rw [secrets_eq] at hs
  simpa using hs

end secrets

/-- C2. Value preservation: when the Secret of a table name is stored in the target
namespace with a `Data["cookie-secret"]` that is not empty, a pass of `EnsureOAuthSecrets`
issues no `Create` and no `Update` for that name, and the Secret stored under that name
after the pass is the one stored before, whatever the pass does for the other name and
however it ends. -/
theorem C2_value_preservation (ns : String) (cl : apiserver.Cluster) (e : Entropy)
    (s : secrets.Descriptor) (hs : s ∈ secrets.EnsureOAuthSecrets.secrets)
    (obj : corev1.Secret) (value : List Nat)
    (hfind : apiserver.find cl.objects ns s.name = some obj)
    (hvalue : GoMap.lookup obj.Data "cookie-secret" = some value) (hne : value ≠ []) :
    (secrets.EnsureOAuthSecrets apiserver.client ns cl e).1.calls.filter
        (client.Call.writes ns s.name) = []
    ∧ apiserver.find (secrets.EnsureOAuthSecrets apiserver.client ns cl e).1.store.objects
        ns s.name = some obj := by
  have hset : secrets.EnsureOAuthSecrets.unset obj = false := by
    rw [secrets.unset_iff]
    cases value with
    | nil => exact absurd rfl hne
    | cons b bs => exact ⟨b, bs, hvalue⟩
  rcases secrets.mem_secrets s hs with rfl | rfl
  · obtain ⟨hobjs, hcalls, _⟩ := apiserver.body_ready ns secrets.webui ⟨cl, e, []⟩ obj hfind hset
    rcases secrets.ensure_run apiserver.client ns cl e with hrun | hrun
    · rw [hrun, hcalls, hobjs]
      exact ⟨by simp [client.Call.writes], hfind⟩
    · rw [hrun]
      constructor
      · rw [apiserver.body_writes_other ns secrets.buildapi _ _ (Ne.symm apiserver.names_ne),
          hcalls]
        simp [client.Call.writes]
      · rw [apiserver.body_frame ns secrets.buildapi _ ns secrets.webui.name
          (fun hk => apiserver.names_ne hk.2.symm), hobjs]
        exact hfind
  · have hfind1 : apiserver.find
        (secrets.EnsureOAuthSecrets.body apiserver.client ns secrets.webui ⟨cl, e, []⟩).1.store.objects
        ns secrets.buildapi.name = some obj := by
      rw [apiserver.body_frame ns secrets.webui _ ns secrets.buildapi.name
        (fun hk => apiserver.names_ne hk.2)]
      exact hfind
    have hcalls1 : (secrets.EnsureOAuthSecrets.body apiserver.client ns secrets.webui
        ⟨cl, e, []⟩).1.calls.filter (client.Call.writes ns secrets.buildapi.name) = [] := by
      rw [apiserver.body_writes_other ns secrets.webui _ _ apiserver.names_ne]
      rfl
    rcases secrets.ensure_run apiserver.client ns cl e with hrun | hrun
    · rw [hrun]
      exact ⟨hcalls1, hfind1⟩
    · obtain ⟨hobjs, hcalls, _⟩ := apiserver.body_ready ns secrets.buildapi _ obj hfind1 hset
      rw [hrun, hcalls, hobjs, List.filter_append, hcalls1]
      exact ⟨by simp [client.Call.writes], hfind1⟩

/-- C2 on the scenario of the specification: the first Secret is stored with the cookie
`X`, the second is missing and gets created. -/
theorem C2_value_preservation_witness :
    (secrets.EnsureOAuthSecrets apiserver.client "ns"
        ⟨[⟨"ado-webui-oauth-proxy", "ns", [], "Opaque", [("cookie-secret", [88])], []⟩], []⟩
        ⟨fun i => i, []⟩).1.calls.filter
        (client.Call.writes "ns" "ado-webui-oauth-proxy") = []
    ∧ apiserver.find (secrets.EnsureOAuthSecrets apiserver.client "ns"
        ⟨[⟨"ado-webui-oauth-proxy", "ns", [], "Opaque", [("cookie-secret", [88])], []⟩], []⟩
        ⟨fun i => i, []⟩).1.store.objects
        "ns" "ado-webui-oauth-proxy"
      = some ⟨"ado-webui-oauth-proxy", "ns", [], "Opaque", [("cookie-secret", [88])], []⟩ :=
  C2_value_preservation "ns"
    ⟨[⟨"ado-webui-oauth-proxy", "ns", [], "Opaque", [("cookie-secret", [88])], []⟩], []⟩
    ⟨fun i => i, []⟩ secrets.webui (by decide)
    ⟨"ado-webui-oauth-proxy", "ns", [], "Opaque", [("cookie-secret", [88])], []⟩ [88]
    (by decide) (by decide) (by decide)

namespace apiserver

open secrets

theorem get_pending (cl cl' : Cluster) (ns name : String) (res : Except GoError corev1.Secret)
    (hp : cl.pending = []) (h : Get cl ns name = (cl', res)) : cl'.pending = [] := by
  unfold Get at h
  rw [hp] at h
  simp only [] at h
  split at h <;> (cases h; simp [hp])

theorem create_pending (cl cl' : Cluster) (obj : corev1.Secret) (res : Option GoError)
    (hp : cl.pending = []) (h : Create cl obj = (cl', res)) : cl'.pending = [] := by
  unfold Create at h
  rw [hp] at h
  simp only [] at h
  split at h <;> (cases h; simp [hp])

theorem update_pending (cl cl' : Cluster) (obj : corev1.Secret) (res : Option GoError)
    (hp : cl.pending = []) (h : Update cl obj = (cl', res)) : cl'.pending = [] := by
  unfold Update at h
  rw [hp] at h
  simp only [] at h
  split at h <;> (cases h; simp [hp])

/-- A store with no scripted fault has none after an iteration. -/
theorem body_pending (ns : String) (s : Descriptor) (r : Run Cluster)
    (hp : r.store.pending = []) :
    (EnsureOAuthSecrets.body client ns s r).1.store.pending = [] := by
  rcases body_cases client ns s r with
    ⟨st, g, hget, hnf⟩ | ⟨st, nf, e, g, hget, hnf, hread⟩
    | ⟨st, nf, e, bs, st', res, hget, hnf, hread, hc⟩ | ⟨st, secret, hget, hset⟩
    | ⟨st, secret, e, g, hget, hun, hread⟩
    | ⟨st, secret, e, bs, st', res, hget, hun, hread, hu⟩
  · rw [body_fetchError client ns s r st g hget hnf]
    exact get_pending _ _ _ _ _ hp hget
  · rw [body_missing_generationError client ns s r st nf e g hget hnf hread]
    exact get_pending _ _ _ _ _ hp hget
  · rw [body_missing_create client ns s r st st' nf e bs res hget hnf hread hc]
    exact create_pending _ _ _ _ (get_pending _ _ _ _ _ hp hget) hc
  · rw [body_present_set client ns s r st secret hget hset]
    exact get_pending _ _ _ _ _ hp hget
  · rw [body_empty_generationError client ns s r st secret e g hget hun hread]
    exact get_pending _ _ _ _ _ hp hget
  · rw [body_empty_update client ns s r st st' secret e bs res hget hun hread hu]
    exact update_pending _ _ _ _ (get_pending _ _ _ _ _ hp hget) hu

/-- An iteration on a ready object of a store with no scripted fault: one `Get`, the end of
the body, and the store and the entropy as they were. -/
theorem body_ready_quiet (ns : String) (s : Descriptor) (r : Run Cluster)
    (obj : corev1.Secret) (hp : r.store.pending = [])
    (hfind : find r.store.objects ns s.name = some obj)
    (hset : EnsureOAuthSecrets.unset obj = false) :
    EnsureOAuthSecrets.body client ns s r
      = (⟨r.store, r.entropy, r.calls ++ [client.Call.get ns s.name]⟩, .nil) := by
  have hget : client.Get r.store ns s.name = (r.store, .ok obj) := by
    have hst : r.store = ⟨r.store.objects, []⟩ := by
      rw [← hp]
    rw [hst]
    exact get_quiet _ _ _ _ hfind
  exact body_present_set client ns s r r.store obj hget hset

/-- A pass over a store with no scripted fault in which both objects are ready issues its
two `Get` calls and nothing else, returns nil, and leaves the store and the entropy as
they were. -/
theorem ensure_ready (ns : String) (cl : Cluster) (e : Entropy) (o1 o2 : corev1.Secret)
    (hp : cl.pending = [])
    (h1 : find cl.objects ns webui.name = some o1)
    (hs1 : EnsureOAuthSecrets.unset o1 = false)
    (h2 : find cl.objects ns buildapi.name = some o2)
    (hs2 : EnsureOAuthSecrets.unset o2 = false) :
    EnsureOAuthSecrets client ns cl e
      = (⟨cl, e, [client.Call.get ns webui.name, client.Call.get ns buildapi.name]⟩,
          .nil) := by
  rw [ensure_unfold, body_ready_quiet ns webui ⟨cl, e, []⟩ o1 hp h1 hs1]
  simp only []
  rw [body_ready_quiet ns buildapi _ o2 hp h2 hs2]
  rfl

/-- A pass over a store in which both objects are ready, whatever faults are scripted,
issues no write and leaves the stored objects as they were. -/
theorem ensure_ready_any (ns : String) (cl : Cluster) (e : Entropy) (o1 o2 : corev1.Secret)
    (h1 : find cl.objects ns webui.name = some o1)
    (hs1 : EnsureOAuthSecrets.unset o1 = false)
    (h2 : find cl.objects ns buildapi.name = some o2)
    (hs2 : EnsureOAuthSecrets.unset o2 = false) :
    (EnsureOAuthSecrets client ns cl e).1.calls.filter client.Call.isWrite = []
      ∧ (EnsureOAuthSecrets client ns cl e).1.store.objects = cl.objects := by
  obtain ⟨hobjs, hcalls, _⟩ := body_ready ns webui ⟨cl, e, []⟩ o1 h1 hs1
  rcases ensure_run client ns cl e with hrun | hrun
  · rw [hrun, hcalls, hobjs]
    exact ⟨by simp [client.Call.isWrite], rfl⟩
  · have h2' : find (EnsureOAuthSecrets.body client ns webui ⟨cl, e, []⟩).1.store.objects ns
        buildapi.name = some o2 := by
      rw [hobjs]; exact h2
    obtain ⟨hobjs', hcalls', _⟩ := body_ready ns buildapi _ o2 h2' hs2
    rw [hrun, hcalls', hobjs', hcalls, hobjs]
    exact ⟨by simp [client.Call.isWrite], rfl⟩

theorem ready_of_value (o : corev1.Secret) (v : List Nat)
    (hl : GoMap.lookup o.Data "cookie-secret" = some v) (hv : v ≠ []) :
    EnsureOAuthSecrets.unset o = false := by
  rw [unset_iff]
  cases v with
  | nil => exact absurd rfl hv
  | cons b bs => exact ⟨b, bs, hl⟩

/-- After a pass that returned nil both objects are stored and ready. -/
theorem ensure_nil_ready (ns : String) (cl : Cluster) (e : Entropy)
    (h : (EnsureOAuthSecrets client ns cl e).2 = .nil) :
    ∃ o1 o2,
      find (EnsureOAuthSecrets client ns cl e).1.store.objects ns webui.name = some o1
      ∧ EnsureOAuthSecrets.unset o1 = false
      ∧ find (EnsureOAuthSecrets client ns cl e).1.store.objects ns buildapi.name = some o2
      ∧ EnsureOAuthSecrets.unset o2 = false := by
  obtain ⟨r1, hb1, hb2⟩ := ensure_nil client ns cl e h
  obtain ⟨o1, v1, hf1, hl1, hv1⟩ := body_nil_ready ns webui _ r1 hb1
  obtain ⟨o2, v2, hf2, hl2, hv2⟩ := body_nil_ready ns buildapi r1 _ hb2
  have hframe := body_frame ns buildapi r1 ns webui.name (fun hk => names_ne hk.2.symm)
  rw [hb2] at hframe
  exact ⟨o1, o2, hframe.trans hf1, ready_of_value o1 v1 hl1 hv1, hf2,
    ready_of_value o2 v2 hl2 hv2⟩

end apiserver

/-- C3. Idempotence: from a store with no Secrets, when a pass of `EnsureOAuthSecrets`
returns nil and a second pass is run on the store the first one left, the second pass
returns nil, issues no `Create` and no `Update` (its calls are the two `Get`s), and leaves
the store in the state the first pass left it in. (The store here answers every call from
its objects. When faults are scripted, the last part says, the second pass still issues no
write and leaves the stored objects as they were, whatever it returns.) -/
theorem C3_idempotence (ns : String) (e e₂ : Entropy)
    (h : (secrets.EnsureOAuthSecrets apiserver.client ns ⟨[], []⟩ e).2 = .nil) :
    (secrets.EnsureOAuthSecrets apiserver.client ns
        (secrets.EnsureOAuthSecrets apiserver.client ns ⟨[], []⟩ e).1.store e₂).2 = .nil
    ∧ (secrets.EnsureOAuthSecrets apiserver.client ns
        (secrets.EnsureOAuthSecrets apiserver.client ns ⟨[], []⟩ e).1.store e₂).1.calls
        = [client.Call.get ns "ado-webui-oauth-proxy",
            client.Call.get ns "ado-build-api-oauth-proxy"]
    ∧ (secrets.EnsureOAuthSecrets apiserver.client ns
        (secrets.EnsureOAuthSecrets apiserver.client ns ⟨[], []⟩ e).1.store e₂).1.calls.filter
          client.Call.isWrite = []
    ∧ (secrets.EnsureOAuthSecrets apiserver.client ns
        (secrets.EnsureOAuthSecrets apiserver.client ns ⟨[], []⟩ e).1.store e₂).1.store
        = (secrets.EnsureOAuthSecrets apiserver.client ns ⟨[], []⟩ e).1.store
    ∧ ∀ (pending : List (Option String)) (e₁ : Entropy),
        (secrets.EnsureOAuthSecrets apiserver.client ns ⟨[], pending⟩ e₁).2 = .nil →
        (secrets.EnsureOAuthSecrets apiserver.client ns
            (secrets.EnsureOAuthSecrets apiserver.client ns ⟨[], pending⟩ e₁).1.store
            e₂).1.calls.filter client.Call.isWrite = []
        ∧ (secrets.EnsureOAuthSecrets apiserver.client ns
            (secrets.EnsureOAuthSecrets apiserver.client ns ⟨[], pending⟩ e₁).1.store
            e₂).1.store.objects
          = (secrets.EnsureOAuthSecrets apiserver.client ns ⟨[], pending⟩ e₁).1.store.objects := by
  obtain ⟨r1, hb1, hb2⟩ := apiserver.ensure_nil apiserver.client ns ⟨[], []⟩ e h
  obtain ⟨o1, o2, hf1, hs1, hf2, hs2⟩ := apiserver.ensure_nil_ready ns ⟨[], []⟩ e h
  have hp1 : r1.store.pending = [] := by
    have := apiserver.body_pending ns secrets.webui ⟨⟨[], []⟩, e, []⟩ rfl
    rw [hb1] at this
    exact this
  have hp2 : (secrets.EnsureOAuthSecrets apiserver.client ns ⟨[], []⟩ e).1.store.pending
      = [] := by
    have := apiserver.body_pending ns secrets.buildapi r1 hp1
    rw [hb2] at this
    exact this
  rw [apiserver.ensure_ready ns _ e₂ o1 o2 hp2 hf1 hs1 hf2 hs2]
  refine ⟨rfl, rfl, rfl, rfl, ?_⟩
  intro pending e₁ h'
  obtain ⟨p1, p2, hg1, ht1, hg2, ht2⟩ := apiserver.ensure_nil_ready ns ⟨[], pending⟩ e₁ h'
  exact apiserver.ensure_ready_any ns _ e₂ p1 p2 hg1 ht1 hg2 ht2

/-- C3 with an entropy source that never fails. -/
theorem C3_idempotence_witness :
    (secrets.EnsureOAuthSecrets apiserver.client "ns" ⟨[], []⟩ ⟨fun i => i, []⟩).2 = .nil
    ∧ (secrets.EnsureOAuthSecrets apiserver.client "ns"
        (secrets.EnsureOAuthSecrets apiserver.client "ns" ⟨[], []⟩
          ⟨fun i => i, []⟩).1.store ⟨fun i => i + 64, []⟩).2 = .nil
    ∧ (secrets.EnsureOAuthSecrets apiserver.client "ns"
        (secrets.EnsureOAuthSecrets apiserver.client "ns" ⟨[], []⟩
          ⟨fun i => i, []⟩).1.store ⟨fun i => i + 64, []⟩).1.calls
        = [client.Call.get "ns" "ado-webui-oauth-proxy",
            client.Call.get "ns" "ado-build-api-oauth-proxy"]
    ∧ (secrets.EnsureOAuthSecrets apiserver.client "ns"
        (secrets.EnsureOAuthSecrets apiserver.client "ns" ⟨[], []⟩
          ⟨fun i => i, []⟩).1.store ⟨fun i => i + 64, []⟩).1.store
        = (secrets.EnsureOAuthSecrets apiserver.client "ns" ⟨[], []⟩
            ⟨fun i => i, []⟩).1.store :=
  ⟨by decide,
    (C3_idempotence "ns" ⟨fun i => i, []⟩ ⟨fun i => i + 64, []⟩ (by decide)).1,
    (C3_idempotence "ns" ⟨fun i => i, []⟩ ⟨fun i => i + 64, []⟩ (by decide)).2.1,
    (C3_idempotence "ns" ⟨fun i => i, []⟩ ⟨fun i => i + 64, []⟩ (by decide)).2.2.2.1⟩

namespace apiserver

open secrets

/-- An iteration that reaches its end on an object whose cookie is unset repaired it: it
read 32 bytes, issued one `Update` of the object with the token set, and the object is
stored with the bytes of the token. -/
theorem body_repaired (ns : String) (s : Descriptor) (r r' : Run Cluster)
    (obj : corev1.Secret) (hfind : find r.store.objects ns s.name = some obj)
    (hun : EnsureOAuthSecrets.unset obj = true)
    (h : EnsureOAuthSecrets.body client ns s r = (r', .nil)) :
    ∃ e bs, rand.Read r.entropy 32 = (e, .ok bs)
      ∧ find r'.store.objects ns s.name
          = some (persisted (EnsureOAuthSecrets.withCookie obj (generateRandomSecret.token bs)))
      ∧ r'.calls = r.calls ++ [client.Call.get ns s.name,
          client.Call.update
            (EnsureOAuthSecrets.withCookie obj (generateRandomSecret.token bs))] := by
  rcases body_nil ns s r r' h with
    ⟨obj', hfind', hset, _, _, _⟩ | ⟨obj', e, bs, hfind', _, hread, hobjs, _, hcalls⟩
    | ⟨e, bs, hnone, _, _, _, _⟩
  · rw [hfind] at hfind'; cases hfind'
    rw [hun] at hset; cases hset
  · rw [hfind] at hfind'; cases hfind'
    have hk := find_key _ _ _ _ hfind
    refine ⟨e, bs, hread, ?_, hcalls⟩
    rw [hobjs, ← hk.1, ← hk.2]
    exact find_put_same _ _
  · rw [hfind] at hnone; cases hnone

/-- The token made of 32 bytes has 32 characters, all of the alphabet. -/
theorem token_facts (e e' : Entropy) (bs : List Nat) (h : rand.Read e 32 = (e', .ok bs)) :
    (generateRandomSecret.token bs).length = 32
      ∧ (∀ ch ∈ (generateRandomSecret.token bs).toList,
          ch ∈ generateRandomSecret.charset.toList)
      ∧ bytesOf (generateRandomSecret.token bs)
          = (generateRandomSecret.token bs).toList.map Char.toNat := by
  refine ⟨?_, ?_, ?_⟩
  · simp [generateRandomSecret.token, String.length, (read_length e e' 32 bs h).1]
  · intro ch hch
    simp only [generateRandomSecret.token, String.toList, List.mem_map] at hch
    obtain ⟨b, _, rfl⟩ := hch
    exact symbol_mem b
  · rw [bytesOf_token]
    simp [generateRandomSecret.token, String.toList]

end apiserver

/-- C4. Repair: when the Secret of a table name is stored in the target namespace with
`Data["cookie-secret"]` absent or of length zero and `EnsureOAuthSecrets` returns nil, the
Secret stored under that name afterwards holds under `cookie-secret` the bytes of a token
of exactly 32 characters, each a member of the 64-symbol alphabet, and the pass issued for
that name exactly one write, the `Update` of the Secret read with that token set. -/
theorem C4_repair (ns : String) (cl : apiserver.Cluster) (e : Entropy)
    (s : secrets.Descriptor) (hs : s ∈ secrets.EnsureOAuthSecrets.secrets)
    (obj : corev1.Secret) (hfind : apiserver.find cl.objects ns s.name = some obj)
    (hvalue : GoMap.lookup obj.Data "cookie-secret" = none
      ∨ ∃ value, GoMap.lookup obj.Data "cookie-secret" = some value ∧ value.length = 0)
    (h : (secrets.EnsureOAuthSecrets apiserver.client ns cl e).2 = .nil) :
    ∃ (token : String) (stored : corev1.Secret),
      apiserver.find (secrets.EnsureOAuthSecrets apiserver.client ns cl e).1.store.objects
          ns s.name = some stored
      ∧ GoMap.lookup stored.Data "cookie-secret" = some (token.toList.map Char.toNat)
      ∧ token.length = 32
      ∧ (∀ ch ∈ token.toList, ch ∈ secrets.generateRandomSecret.charset.toList)
      ∧ (secrets.EnsureOAuthSecrets apiserver.client ns cl e).1.calls.filter
            (client.Call.writes ns s.name)
          = [client.Call.update (secrets.EnsureOAuthSecrets.withCookie obj token)] := by
  have hun : secrets.EnsureOAuthSecrets.unset obj = true := by
    unfold secrets.EnsureOAuthSecrets.unset
    rcases hvalue with hnone | ⟨value, hsome, hlen⟩
    · rw [hnone]
    · rw [hsome]; simp [hlen]
  have hk := apiserver.find_key _ _ _ _ hfind
  obtain ⟨r1, hb1, hb2⟩ := apiserver.ensure_nil apiserver.client ns cl e h
  rcases secrets.mem_secrets s hs with rfl | rfl
  · obtain ⟨e', bs, hread, hstored, hcalls⟩ :=
      apiserver.body_repaired ns secrets.webui _ r1 obj hfind hun hb1
    obtain ⟨hlen, hmem, hbytes⟩ := apiserver.token_facts _ _ _ hread
    have hframe := apiserver.body_frame ns secrets.buildapi r1 ns secrets.webui.name
      (fun hk => apiserver.names_ne hk.2.symm)
    have hwrites := apiserver.body_writes_other ns secrets.buildapi r1 secrets.webui.name
      (Ne.symm apiserver.names_ne)
    rw [hb2] at hframe hwrites
    refine ⟨secrets.generateRandomSecret.token bs, _, hframe.trans hstored, ?_, hlen, hmem, ?_⟩
    · rw [apiserver.persisted_withCookie, hbytes]
    · rw [hwrites, hcalls]
      simp [client.Call.writes, secrets.EnsureOAuthSecrets.withCookie, hk.1, hk.2]
  · have hframe := apiserver.body_frame ns secrets.webui ⟨cl, e, []⟩ ns secrets.buildapi.name
      (fun hk => apiserver.names_ne hk.2)
    have hwrites := apiserver.body_writes_other ns secrets.webui ⟨cl, e, []⟩
      secrets.buildapi.name apiserver.names_ne
    rw [hb1] at hframe hwrites
    obtain ⟨e', bs, hread, hstored, hcalls⟩ :=
      apiserver.body_repaired ns secrets.buildapi r1 _ obj (hframe.trans hfind) hun hb2
    obtain ⟨hlen, hmem, hbytes⟩ := apiserver.token_facts _ _ _ hread
    refine ⟨secrets.generateRandomSecret.token bs, _, hstored, ?_, hlen, hmem, ?_⟩
    · rw [apiserver.persisted_withCookie, hbytes]
    · rw [hcalls, List.filter_append, hwrites]
      simp [client.Call.writes, secrets.EnsureOAuthSecrets.withCookie, hk.1, hk.2]

/-- C4 on a store that holds the first Secret with an empty cookie. -/
theorem C4_repair_witness :
    ∃ (token : String) (stored : corev1.Secret),
      apiserver.find (secrets.EnsureOAuthSecrets apiserver.client "ns"
          ⟨[⟨"ado-webui-oauth-proxy", "ns", [], "Opaque", [("cookie-secret", [])], []⟩], []⟩
          ⟨fun i => i, []⟩).1.store.objects "ns" secrets.webui.name = some stored
      ∧ GoMap.lookup stored.Data "cookie-secret" = some (token.toList.map Char.toNat)
      ∧ token.length = 32
      ∧ (∀ ch ∈ token.toList, ch ∈ secrets.generateRandomSecret.charset.toList)
      ∧ (secrets.EnsureOAuthSecrets apiserver.client "ns"
          ⟨[⟨"ado-webui-oauth-proxy", "ns", [], "Opaque", [("cookie-secret", [])], []⟩], []⟩
          ⟨fun i => i, []⟩).1.calls.filter
            (client.Call.writes "ns" secrets.webui.name)
          = [client.Call.update (secrets.EnsureOAuthSecrets.withCookie
              ⟨"ado-webui-oauth-proxy", "ns", [], "Opaque", [("cookie-secret", [])], []⟩
              token)] :=
  C4_repair "ns"
    ⟨[⟨"ado-webui-oauth-proxy", "ns", [], "Opaque", [("cookie-secret", [])], []⟩], []⟩
    ⟨fun i => i, []⟩ secrets.webui (by decide)
    ⟨"ado-webui-oauth-proxy", "ns", [], "Opaque", [("cookie-secret", [])], []⟩ (by decide)
    (Or.inr ⟨[], by decide, by decide⟩) (by decide)

/-! ## The pass, for any client -/

namespace secrets

variable {σ : Type}

theorem errorf_facts (lead name : String) (cause : GoError) :
    (Errorf lead name cause).Unwrap = some cause
      ∧ (Errorf lead name cause).Error = lead ++ name ++ ": " ++ cause.Error := by
  simp [Errorf, GoError.Unwrap, GoError.Error]

/-- A pass whose first iteration returns an error returns it and runs nothing else. -/
theorem ensure_first_error (c : client.Client σ) (ns : String) (st : σ) (e : Entropy)
    (r : Run σ) (err : GoError)
    (h : EnsureOAuthSecrets.body c ns webui ⟨st, e, []⟩ = (r, .error err)) :
    EnsureOAuthSecrets c ns st e = (r, .error err) := by
  rw [ensure_unfold, h]

/-- A pass whose first iteration reaches its end is its second iteration. -/
theorem ensure_first_nil (c : client.Client σ) (ns : String) (st : σ) (e : Entropy)
    (r : Run σ) (h : EnsureOAuthSecrets.body c ns webui ⟨st, e, []⟩ = (r, .nil)) :
    EnsureOAuthSecrets c ns st e = EnsureOAuthSecrets.body c ns buildapi r := by
  rw [ensure_unfold, h]

/-- The loop stops at an iteration that returns an error. -/
theorem loop_error (c : client.Client σ) (ns : String) (s : Descriptor)
    (rest : List Descriptor) (r r' : Run σ) (err : GoError)
    (h : EnsureOAuthSecrets.body c ns s r = (r', .error err)) :
    EnsureOAuthSecrets.loop c ns (s :: rest) r = (r', .error err) := by
  simp [EnsureOAuthSecrets.loop, h]

end secrets

/-- C6. Fail-fast: when the `Get` of the first table name fails with an error that is not
classified "not found", `EnsureOAuthSecrets` returns that error wrapped (it is what
`Unwrap` gives back) under a message naming the Secret, the only call it issues is that
`Get` (no call at all for the second name, no write for the first), and the store is in
the state that `Get` left it in; on the Secret store the stored objects are unchanged. -/
theorem C6_fail_fast {σ : Type} (c : client.Client σ) (ns : String) (st st' : σ)
    (e : Entropy) (err : GoError)
    (hget : c.Get st ns "ado-webui-oauth-proxy" = (st', .error err))
    (hnf : IsNotFound err = false) :
    secrets.EnsureOAuthSecrets c ns st e
        = (⟨st', e, [client.Call.get ns "ado-webui-oauth-proxy"]⟩,
            .error (Errorf "failed to get secret " "ado-webui-oauth-proxy" err))
    ∧ (Errorf "failed to get secret " "ado-webui-oauth-proxy" err).Unwrap = some err
    ∧ (Errorf "failed to get secret " "ado-webui-oauth-proxy" err).Error
        = "failed to get secret " ++ "ado-webui-oauth-proxy" ++ ": " ++ err.Error
    ∧ ∀ (cl cl' : apiserver.Cluster) (err' : GoError),
        apiserver.Get cl ns "ado-webui-oauth-proxy" = (cl', .error err') →
        IsNotFound err' = false →
        (secrets.EnsureOAuthSecrets apiserver.client ns cl e).1.store.objects = cl.objects := by
  have key : ∀ {τ : Type} (d : client.Client τ) (t t' : τ) (g : GoError),
      d.Get t ns "ado-webui-oauth-proxy" = (t', .error g) → IsNotFound g = false →
      secrets.EnsureOAuthSecrets d ns t e
        = (⟨t', e, [client.Call.get ns "ado-webui-oauth-proxy"]⟩,
            .error (Errorf "failed to get secret " "ado-webui-oauth-proxy" g)) := by
    intro τ d t t' g hg hn
    exact secrets.ensure_first_error d ns t e _ _
      (secrets.body_fetchError d ns secrets.webui ⟨t, e, []⟩ t' g hg hn)
  refine ⟨key c st st' err hget hnf, (secrets.errorf_facts _ _ _).1,
    (secrets.errorf_facts _ _ _).2, ?_⟩
  intro cl cl' err' hget' hnf'
  rw [key apiserver.client cl cl' err' hget' hnf']
  exact apiserver.get_objects _ _ _ _ _ hget'

/-- C6 on a store whose first call fails with a connection error. -/
theorem C6_fail_fast_witness :
    secrets.EnsureOAuthSecrets apiserver.client "ns" ⟨[], [some "connection refused"]⟩
        ⟨fun i => i, []⟩
      = (⟨⟨[], []⟩, ⟨fun i => i, []⟩, [client.Call.get "ns" "ado-webui-oauth-proxy"]⟩,
          .error (Errorf "failed to get secret " "ado-webui-oauth-proxy"
            (.base false "connection refused"))) :=
  (C6_fail_fast apiserver.client "ns" ⟨[], [some "connection refused"]⟩ ⟨[], []⟩
    ⟨fun i => i, []⟩ (.base false "connection refused") rfl rfl).1

/-- C7. Create branch: whenever the `Get` of a descriptor answers "not found" and the
entropy source supplies the 32 bytes, the iteration issues after the `Get` exactly one
call, the `Create` of a Secret whose name is the descriptor's, whose namespace is the
argument, whose labels are the descriptor's, whose type is `Opaque` and whose
`StringData["cookie-secret"]` is the token just generated, of 32 characters; it ends the
body when the `Create` succeeds. On the empty store, a pass issues `Get`, `Create` for the
first name, then `Get`, `Create` for the second, and returns nil. -/
theorem C7_create_branch {σ : Type} (c : client.Client σ) (ns : String)
    (s : secrets.Descriptor) (r : Run σ) (st st' : σ) (nf : GoError)
    (e : Entropy) (bs : List Nat) (res : Option GoError)
    (hget : c.Get r.store ns s.name = (st, .error nf)) (hnf : IsNotFound nf = true)
    (hread : rand.Read r.entropy 32 = (e, .ok bs))
    (hcreate : c.Create st
      (secrets.EnsureOAuthSecrets.newSecret ns s (secrets.generateRandomSecret.token bs))
        = (st', res)) :
    (secrets.EnsureOAuthSecrets.body c ns s r).1.calls
        = r.calls ++ [client.Call.get ns s.name,
            client.Call.create
              ⟨s.name, ns, s.labels, "Opaque", [],
                [("cookie-secret", secrets.generateRandomSecret.token bs)]⟩]
    ∧ secrets.generateRandomSecret r.entropy 32
        = (e, some (secrets.generateRandomSecret.token bs, none))
    ∧ (secrets.generateRandomSecret.token bs).length = 32
    ∧ (secrets.EnsureOAuthSecrets.body c ns s r).1.store = st'
    ∧ (res = none → (secrets.EnsureOAuthSecrets.body c ns s r).2 = .nil)
    ∧ ∀ (e₀ e₁ e₂ : Entropy) (bs₁ bs₂ : List Nat),
        rand.Read e₀ 32 = (e₁, .ok bs₁) → rand.Read e₁ 32 = (e₂, .ok bs₂) →
        secrets.EnsureOAuthSecrets apiserver.client ns ⟨[], []⟩ e₀
          = (⟨⟨[apiserver.persisted (secrets.EnsureOAuthSecrets.newSecret ns secrets.webui
                  (secrets.generateRandomSecret.token bs₁)),
                apiserver.persisted (secrets.EnsureOAuthSecrets.newSecret ns secrets.buildapi
                  (secrets.generateRandomSecret.token bs₂))], []⟩,
              e₂,
              [client.Call.get ns "ado-webui-oauth-proxy",
                client.Call.create (secrets.EnsureOAuthSecrets.newSecret ns secrets.webui
                  (secrets.generateRandomSecret.token bs₁)),
                client.Call.get ns "ado-build-api-oauth-proxy",
                client.Call.create (secrets.EnsureOAuthSecrets.newSecret ns secrets.buildapi
                  (secrets.generateRandomSecret.token bs₂))]⟩,
            .nil) := by
  have hbody := secrets.body_missing_create c ns s r st st' nf e bs res hget hnf hread hcreate
  refine ⟨?_, secrets.generate_ok _ _ _ _ hread, ?_, ?_, ?_, ?_⟩
  · rw [hbody]; rfl
  · simp [secrets.generateRandomSecret.token, String.length,
      (secrets.read_length _ _ _ _ hread).1]
  · rw [hbody]
  · intro hres
    subst hres
    rw [hbody]
    rfl
  · intro e₀ e₁ e₂ bs₁ bs₂ h₁ h₂
    have hne : ¬ ("ado-webui-oauth-proxy" = "ado-build-api-oauth-proxy") := by decide
    simp [secrets.EnsureOAuthSecrets, secrets.secrets_eq, secrets.EnsureOAuthSecrets.loop,
      secrets.EnsureOAuthSecrets.body, apiserver.client, apiserver.Get, apiserver.Create,
      apiserver.find, apiserver.put, IsNotFound, secrets.generate_ok _ _ _ _ h₁,
      secrets.generate_ok _ _ _ _ h₂, secrets.EnsureOAuthSecrets.newSecret,
      apiserver.persisted, secrets.webui, secrets.buildapi, hne]

/-- C7 on the empty store, for the first descriptor. -/
theorem C7_create_branch_witness :
    (secrets.EnsureOAuthSecrets.body apiserver.client "ns" secrets.webui
        ⟨⟨[], []⟩, ⟨fun i => i, []⟩, []⟩).1.calls
      = [] ++ [client.Call.get "ns" "ado-webui-oauth-proxy",
          client.Call.create
            ⟨"ado-webui-oauth-proxy", "ns", secrets.webui.labels, "Opaque", [],
              [("cookie-secret", "ABCDEFGHIJKLMNOPQRSTUVWXYZabcdef")]⟩] :=
  (C7_create_branch apiserver.client "ns" secrets.webui ⟨⟨[], []⟩, ⟨fun i => i, []⟩, []⟩
    ⟨[], []⟩ _ (.base true "secret ado-webui-oauth-proxy not found")
    (rand.advance ⟨fun i => i, []⟩ 32) (rand.bytes ⟨fun i => i, []⟩ 32) none
    rfl rfl rfl rfl).1

/-- C8. Error enrichment: every error `EnsureOAuthSecrets` returns is the error `cause` a
collaborator returned (the failed `Get`, the failed read of the entropy source, the failed
`Create` or the failed `Update`) while a descriptor `s` of the table was processed (the
first from the initial run state, the second from the state the first left), wrapped
unchanged (`Unwrap` gives `cause` back) under a message that contains the name of `s`; and
conversely every such failure, of whatever kind (a `Create` refused because the object
already exists included), makes the pass return exactly that wrapped error. -/
theorem C8_error_enrichment {σ : Type} (c : client.Client σ) (ns : String) (st : σ)
    (e : Entropy) :
    (∀ err, (secrets.EnsureOAuthSecrets c ns st e).2 = .error err →
      ∃ s ∈ secrets.EnsureOAuthSecrets.secrets, ∃ (r : Run σ) (lead : String)
        (cause : GoError),
        (s = secrets.webui ∧ r = ⟨st, e, []⟩
          ∨ s = secrets.buildapi
            ∧ secrets.EnsureOAuthSecrets.body c ns secrets.webui ⟨st, e, []⟩ = (r, .nil))
        ∧ secrets.EnsureOAuthSecrets.Origin c ns s r lead cause
        ∧ err = Errorf lead s.name cause
        ∧ err.Unwrap = some cause
        ∧ err.Error = lead ++ s.name ++ ": " ++ cause.Error)
    ∧ (∀ lead cause, secrets.EnsureOAuthSecrets.Origin c ns secrets.webui ⟨st, e, []⟩ lead cause →
        (secrets.EnsureOAuthSecrets c ns st e).2
          = .error (Errorf lead "ado-webui-oauth-proxy" cause))
    ∧ (∀ r lead cause,
        secrets.EnsureOAuthSecrets.body c ns secrets.webui ⟨st, e, []⟩ = (r, .nil) →
        secrets.EnsureOAuthSecrets.Origin c ns secrets.buildapi r lead cause →
        (secrets.EnsureOAuthSecrets c ns st e).2
          = .error (Errorf lead "ado-build-api-oauth-proxy" cause)) := by
  refine ⟨?_, ?_, ?_⟩
  · intro err h
    rw [secrets.ensure_unfold] at h
    rcases h1 : secrets.EnsureOAuthSecrets.body c ns secrets.webui ⟨st, e, []⟩ with ⟨r1, ret1⟩
    rw [h1] at h
    cases ret1 with
    | nil =>
      simp only [] at h
      obtain ⟨lead, cause, horigin, rfl⟩ :=
        (secrets.body_error_iff c ns secrets.buildapi r1 err).1 h
      exact ⟨secrets.buildapi, by simp [secrets.secrets_eq], r1, lead, cause,
        Or.inr ⟨rfl, rfl⟩, horigin, rfl,
        (secrets.errorf_facts _ _ _).1, (secrets.errorf_facts _ _ _).2⟩
    | error err1 =>
      simp only [Return.error.injEq] at h
      subst h
      obtain ⟨lead, cause, horigin, rfl⟩ :=
        (secrets.body_error_iff c ns secrets.webui ⟨st, e, []⟩ err1).1 (by rw [h1])
      exact ⟨secrets.webui, by simp [secrets.secrets_eq], _, lead, cause,
        Or.inl ⟨rfl, rfl⟩, horigin, rfl,
        (secrets.errorf_facts _ _ _).1, (secrets.errorf_facts _ _ _).2⟩
    | panic => simp at h
  · intro lead cause horigin
    have hb := (secrets.body_error_iff c ns secrets.webui ⟨st, e, []⟩ _).2
      ⟨lead, cause, horigin, rfl⟩
    rw [secrets.ensure_first_error c ns st e
      (secrets.EnsureOAuthSecrets.body c ns secrets.webui ⟨st, e, []⟩).1 _ (Prod.ext rfl hb)]
    rfl
  · intro r lead cause h1 horigin
    have hb := (secrets.body_error_iff c ns secrets.buildapi r _).2
      ⟨lead, cause, horigin, rfl⟩
    rw [secrets.ensure_first_nil c ns st e r h1, hb]
    rfl

/-- C9. Success characterisation: `EnsureOAuthSecrets` returns nil exactly when the state
machine reaches a success terminal (`Created`, `Repaired` or `NoOp`) for the first
descriptor and then, from the run state the first iteration left, for the second; when
the first descriptor does not, the pass returns an error naming it and ends in the run
state of the first iteration; when the first does and the second does not, the pass
returns an error naming the second. -/
theorem C9_success_characterisation {σ : Type} (c : client.Client σ) (ns : String) (st : σ)
    (e : Entropy) :
    ((secrets.EnsureOAuthSecrets c ns st e).2 = .nil
      ↔ (secrets.EnsureOAuthSecrets.terminal c ns secrets.webui ⟨st, e, []⟩).success = true
        ∧ (secrets.EnsureOAuthSecrets.terminal c ns secrets.buildapi
            (secrets.EnsureOAuthSecrets.body c ns secrets.webui ⟨st, e, []⟩).1).success = true)
    ∧ ((secrets.EnsureOAuthSecrets.terminal c ns secrets.webui ⟨st, e, []⟩).success = false →
        ∃ lead cause, secrets.EnsureOAuthSecrets c ns st e
          = ((secrets.EnsureOAuthSecrets.body c ns secrets.webui ⟨st, e, []⟩).1,
              .error (Errorf lead "ado-webui-oauth-proxy" cause)))
    ∧ ((secrets.EnsureOAuthSecrets.terminal c ns secrets.webui ⟨st, e, []⟩).success = true →
        (secrets.EnsureOAuthSecrets.terminal c ns secrets.buildapi
            (secrets.EnsureOAuthSecrets.body c ns secrets.webui ⟨st, e, []⟩).1).success = false →
        ∃ lead cause, (secrets.EnsureOAuthSecrets c ns st e).2
          = .error (Errorf lead "ado-build-api-oauth-proxy" cause)) := by
  have herr : ∀ (s : secrets.Descriptor) (r : Run σ),
      (secrets.EnsureOAuthSecrets.terminal c ns s r).success = false →
      ∃ lead cause, (secrets.EnsureOAuthSecrets.body c ns s r).2
        = .error (Errorf lead s.name cause) := by
    intro s r hfail
    cases hret : (secrets.EnsureOAuthSecrets.body c ns s r).2 with
    | nil =>
      rw [(secrets.body_nil_iff c ns s r).1 hret] at hfail
      cases hfail
    | panic => exact absurd hret (secrets.body_ne_panic c ns s r)
    | error err =>
      obtain ⟨lead, cause, _, rfl⟩ := (secrets.body_error_iff c ns s r err).1 hret
      exact ⟨lead, cause, rfl⟩
  rcases h1 : secrets.EnsureOAuthSecrets.body c ns secrets.webui ⟨st, e, []⟩ with ⟨r1, ret1⟩
  have hn1 := secrets.body_nil_iff c ns secrets.webui ⟨st, e, []⟩
  have hn2 := secrets.body_nil_iff c ns secrets.buildapi r1
  rw [h1] at hn1
  simp only [] at hn1 ⊢
  refine ⟨?_, ?_, ?_⟩
  · cases ret1 with
    | nil =>
      rw [secrets.ensure_first_nil c ns st e r1 h1, hn2]
      simp [← hn1]
    | error err1 =>
      rw [secrets.ensure_first_error c ns st e r1 err1 h1]
      simp [← hn1]
    | panic => exact absurd (congrArg Prod.snd h1) (secrets.body_ne_panic c ns secrets.webui _)
  · intro hfail
    obtain ⟨lead, cause, hret⟩ := herr secrets.webui ⟨st, e, []⟩ hfail
    rw [h1] at hret
    simp only [] at hret
    subst hret
    exact ⟨lead, cause, secrets.ensure_first_error c ns st e r1 _ h1⟩
  · intro hok hfail
    have hret1 : ret1 = .nil := hn1.2 hok
    subst hret1
    obtain ⟨lead, cause, hret⟩ := herr secrets.buildapi r1 hfail
    exact ⟨lead, cause, by rw [secrets.ensure_first_nil c ns st e r1 h1]; exact hret⟩

namespace secrets

variable {σ : Type}

theorem readOn_returnsError (e e' : Entropy) (gerr : GoError)
    (h : rand.Read e 32 = (e', .error gerr)) :
    rand.ReadOn .returnsError e 32 = (e', some (.error gerr)) := by
  simp [rand.ReadOn, h]

theorem readOn_endsProcess (e e' : Entropy) (gerr : GoError)
    (h : rand.Read e 32 = (e', .error gerr)) :
    rand.ReadOn .endsProcess e 32 = (e', none) := by
  simp [rand.ReadOn, h]

/-- Where `rand.Read` returns the error of the source, the generator is the one of the
sections above. -/
theorem generateOn_returnsError (e : Entropy) :
    generateRandomSecretOn .returnsError e 32 = generateRandomSecret e 32 := by
  unfold generateRandomSecretOn generateRandomSecret rand.ReadOn
  rcases h : rand.Read e 32 with ⟨e', res⟩
  cases res <;> simp

/-- Where `rand.Read` returns the error of the source, an iteration is the one of the
sections above. -/
theorem bodyOn_returnsError (c : client.Client σ) (ns : String) (s : Descriptor) (r : Run σ) :
    EnsureOAuthSecrets.bodyOn .returnsError c ns s r = EnsureOAuthSecrets.body c ns s r := by
  unfold EnsureOAuthSecrets.bodyOn EnsureOAuthSecrets.body
  rw [generateOn_returnsError]

/-- Where `rand.Read` returns the error of the source, the loop is the one of the sections
above. -/
theorem loopOn_returnsError (c : client.Client σ) (ns : String) (l : List Descriptor)
    (r : Run σ) :
    EnsureOAuthSecrets.loopOn .returnsError c ns l r = EnsureOAuthSecrets.loop c ns l r := by
  induction l generalizing r with
  | nil => rfl
  | cons s rest ih =>
    unfold EnsureOAuthSecrets.loopOn EnsureOAuthSecrets.loop
    rw [bodyOn_returnsError]
    rcases EnsureOAuthSecrets.body c ns s r with ⟨r', ret⟩
    cases ret with
    | nil => exact ih r'
    | error err => rfl
    | panic => rfl

/-- An iteration whose read of the entropy source fails, under either toolchain: its only
call is the `Get`, the store is as the `Get` left it, and it ends as the toolchain makes
it end. -/
theorem bodyOn_failedRead (t : rand.Toolchain) (c : client.Client σ) (ns : String)
    (s : Descriptor) (r : Run σ) (st : σ) (got : Except GoError corev1.Secret)
    (e : Entropy) (gerr : GoError)
    (hget : c.Get r.store ns s.name = (st, got))
    (hgen : EnsureOAuthSecrets.generates got = true)
    (hread : rand.Read r.entropy 32 = (e, .error gerr)) :
    EnsureOAuthSecrets.bodyOn t c ns s r
      = (⟨st, e, r.calls ++ [client.Call.get ns s.name]⟩,
          EnsureOAuthSecrets.afterFailedRead t s.name gerr) := by
  cases t with
  | returnsError =>
    cases got with
    | error nf =>
      have hnf : IsNotFound nf = true := hgen
      simp [EnsureOAuthSecrets.bodyOn, hget, hnf, generateRandomSecretOn,
        readOn_returnsError _ _ _ hread, EnsureOAuthSecrets.afterFailedRead]
    | ok secret =>
      have hun : EnsureOAuthSecrets.unset secret = true := hgen
      simp [EnsureOAuthSecrets.bodyOn, hget, hun, generateRandomSecretOn,
        readOn_returnsError _ _ _ hread, EnsureOAuthSecrets.afterFailedRead]
  | endsProcess =>
    cases got with
    | error nf =>
      have hnf : IsNotFound nf = true := hgen
      simp [EnsureOAuthSecrets.bodyOn, hget, hnf, generateRandomSecretOn,
        readOn_endsProcess _ _ _ hread, EnsureOAuthSecrets.afterFailedRead]
    | ok secret =>
      have hun : EnsureOAuthSecrets.unset secret = true := hgen
      simp [EnsureOAuthSecrets.bodyOn, hget, hun, generateRandomSecretOn,
        readOn_endsProcess _ _ _ hread, EnsureOAuthSecrets.afterFailedRead]

/-- The loop ends at an iteration whose read of the entropy source fails. -/
theorem loopOn_failedRead (t : rand.Toolchain) (c : client.Client σ) (ns : String)
    (s : Descriptor) (rest : List Descriptor) (r : Run σ) (st : σ)
    (got : Except GoError corev1.Secret) (e : Entropy) (gerr : GoError)
    (hget : c.Get r.store ns s.name = (st, got))
    (hgen : EnsureOAuthSecrets.generates got = true)
    (hread : rand.Read r.entropy 32 = (e, .error gerr)) :
    EnsureOAuthSecrets.loopOn t c ns (s :: rest) r
      = (⟨st, e, r.calls ++ [client.Call.get ns s.name]⟩,
          EnsureOAuthSecrets.afterFailedRead t s.name gerr) := by
  unfold EnsureOAuthSecrets.loopOn
  rw [bodyOn_failedRead t c ns s r st got e gerr hget hgen hread]
  cases t <;> rfl

end secrets

/-- C10, as stated, fails where `crypto/rand.Read` ends the process on a source that cannot
supply the bytes (Go 1.24 and later): on the empty store with an entropy source whose
first read fails, `generateRandomSecret` does not return, so it does not return the empty
string with the error, and `EnsureOAuthSecrets` does not return, so it returns no error. -/
theorem C10_no_partial_write_counterexample :
    (rand.Read ⟨fun i => i, [some (.base false "entropy exhausted")]⟩ 32).2
        = .error (.base false "entropy exhausted")
    ∧ (secrets.generateRandomSecretOn .endsProcess
          ⟨fun i => i, [some (.base false "entropy exhausted")]⟩ 32).2 = none
    ∧ (secrets.generateRandomSecretOn .endsProcess
          ⟨fun i => i, [some (.base false "entropy exhausted")]⟩ 32).2
        ≠ some ("", some (.base false "entropy exhausted"))
    ∧ (secrets.EnsureOAuthSecretsOn .endsProcess apiserver.client "ns" ⟨[], []⟩
          ⟨fun i => i, [some (.base false "entropy exhausted")]⟩).2 = .panic
    ∧ (secrets.EnsureOAuthSecretsOn .endsProcess apiserver.client "ns" ⟨[], []⟩
          ⟨fun i => i, [some (.base false "entropy exhausted")]⟩).2
        ≠ .error (Errorf "failed to generate cookie secret for " "ado-webui-oauth-proxy"
            (.base false "entropy exhausted")) := by
  refine ⟨rfl, by decide, by decide, by decide, by decide⟩

/-- C10, amended. No write on a generation failure: when the answer of the `Get` sends the
iteration to a token generation (the create branch or the repair branch) and the entropy
source fails, then under either toolchain the loop ends in that iteration without
reaching its end, and the only call of the iteration is the `Get`: no `Create` and no
`Update` for that descriptor, nothing at all for the later ones, and the store in the
state the `Get` left it in; on the Secret store the stored objects are those the iteration
began with. Where `rand.Read` returns the error of the source, `generateRandomSecret`
returns the empty string with that error and the loop returns it wrapped under the
descriptor's name; where `rand.Read` ends the process, neither returns. -/
theorem C10_no_write_on_generation_failure {σ : Type} (t : rand.Toolchain)
    (c : client.Client σ) (ns : String) (s : secrets.Descriptor)
    (rest : List secrets.Descriptor) (r : Run σ) (st : σ)
    (got : Except GoError corev1.Secret) (e : Entropy) (gerr : GoError)
    (hget : c.Get r.store ns s.name = (st, got))
    (hgen : secrets.EnsureOAuthSecrets.generates got = true)
    (hread : rand.Read r.entropy 32 = (e, .error gerr)) :
    (secrets.EnsureOAuthSecrets.loopOn t c ns (s :: rest) r).1
        = ⟨st, e, r.calls ++ [client.Call.get ns s.name]⟩
    ∧ (secrets.EnsureOAuthSecrets.loopOn t c ns (s :: rest) r).2 ≠ .nil
    ∧ (t = .returnsError →
        secrets.generateRandomSecretOn t r.entropy 32 = (e, some ("", some gerr))
        ∧ secrets.generateRandomSecret r.entropy 32 = (e, some ("", some gerr))
        ∧ (secrets.EnsureOAuthSecrets.loopOn t c ns (s :: rest) r).2
            = .error (Errorf "failed to generate cookie secret for " s.name gerr)
        ∧ secrets.EnsureOAuthSecrets.loopOn t c ns (s :: rest) r
            = secrets.EnsureOAuthSecrets.loop c ns (s :: rest) r)
    ∧ (t = .endsProcess →
        secrets.generateRandomSecretOn t r.entropy 32 = (e, none)
        ∧ (secrets.EnsureOAuthSecrets.loopOn t c ns (s :: rest) r).2 = .panic)
    ∧ ∀ (rc : Run apiserver.Cluster) (cl : apiserver.Cluster)
        (got' : Except GoError corev1.Secret) (e' : Entropy) (gerr' : GoError),
        apiserver.Get rc.store ns s.name = (cl, got') →
        secrets.EnsureOAuthSecrets.generates got' = true →
        rand.Read rc.entropy 32 = (e', .error gerr') →
        (secrets.EnsureOAuthSecrets.loopOn t apiserver.client ns (s :: rest) rc).1.store.objects
          = rc.store.objects := by
  have hloop := secrets.loopOn_failedRead t c ns s rest r st got e gerr hget hgen hread
  refine ⟨by rw [hloop], ?_, ?_, ?_, ?_⟩
  · rw [hloop]
    cases t <;> simp [secrets.EnsureOAuthSecrets.afterFailedRead]
  · rintro rfl
    refine ⟨?_, secrets.generate_fail _ _ _ _ hread, by rw [hloop]; rfl,
      secrets.loopOn_returnsError c ns (s :: rest) r⟩
    rw [secrets.generateOn_returnsError]
    exact secrets.generate_fail _ _ _ _ hread
  · rintro rfl
    refine ⟨?_, by rw [hloop]; rfl⟩
    simp [secrets.generateRandomSecretOn, secrets.readOn_endsProcess _ _ _ hread]
  · intro rc cl got' e' gerr' hget' hgen' hread'
    rw [secrets.loopOn_failedRead t apiserver.client ns s rest rc cl got' e' gerr' hget'
      hgen' hread']
    exact apiserver.get_objects _ _ _ _ _ hget'

/-- C10, amended, on the empty store with an entropy source whose first read fails, where
`rand.Read` ends the process: the pass, which is the loop over the table from the initial
run state, leaves the single call `Get` and the store empty. -/
theorem C10_no_write_on_generation_failure_witness :
    (secrets.EnsureOAuthSecretsOn .endsProcess apiserver.client "ns" ⟨[], []⟩
        ⟨fun i => i, [some (.base false "entropy exhausted")]⟩).1
      = ⟨⟨[], []⟩, ⟨fun i => i, []⟩, [client.Call.get "ns" "ado-webui-oauth-proxy"]⟩
    ∧ (secrets.EnsureOAuthSecretsOn .endsProcess apiserver.client "ns" ⟨[], []⟩
        ⟨fun i => i, [some (.base false "entropy exhausted")]⟩).2 ≠ .nil :=
  ⟨(C10_no_write_on_generation_failure .endsProcess apiserver.client "ns" secrets.webui
      [secrets.buildapi]
      ⟨⟨[], []⟩, ⟨fun i => i, [some (.base false "entropy exhausted")]⟩, []⟩ ⟨[], []⟩
      (.error (.base true "secret ado-webui-oauth-proxy not found")) ⟨fun i => i, []⟩
      (.base false "entropy exhausted") rfl rfl rfl).1,
    (C10_no_write_on_generation_failure .endsProcess apiserver.client "ns" secrets.webui
      [secrets.buildapi]
      ⟨⟨[], []⟩, ⟨fun i => i, [some (.base false "entropy exhausted")]⟩, []⟩ ⟨[], []⟩
      (.error (.base true "secret ado-webui-oauth-proxy not found")) ⟨fun i => i, []⟩
      (.base false "entropy exhausted") rfl rfl rfl).2.1⟩

/-! ## The alphabet -/

/-- C12. Exact uniformity of the alphabet mapping: the constant `charset` has exactly 64
symbols, pairwise distinct: 26 upper-case letters, 26 lower-case letters, 10 digits, `-`
and `_`; and for every symbol of it exactly 4 of the 256 byte values `b` have
`charset[b % len(charset)]` equal to that symbol, so that a uniform byte is mapped to a
uniform symbol. The copy of the constant in the command is the same string. -/
theorem C12_alphabet_uniform :
    secrets.generateRandomSecret.charset.length = 64
    ∧ secrets.generateRandomSecret.charset.toList.Nodup
    ∧ (secrets.generateRandomSecret.charset.toList.filter Char.isUpper).length = 26
    ∧ (secrets.generateRandomSecret.charset.toList.filter Char.isLower).length = 26
    ∧ (secrets.generateRandomSecret.charset.toList.filter Char.isDigit).length = 10
    ∧ secrets.generateRandomSecret.charset.toList.filter (fun ch => ch = '-' ∨ ch = '_')
        = ['-', '_']
    ∧ (∀ ch ∈ secrets.generateRandomSecret.charset.toList,
        ((List.range 256).filter fun b =>
          secrets.generateRandomSecret.charset.toList[
            b % secrets.generateRandomSecret.charset.length]? = some ch).length = 4)
    ∧ main.generateRandomSecret.charset = secrets.generateRandomSecret.charset := by
  refine ⟨by decide, by decide, by decide, by decide, by decide, by decide, ?_, rfl⟩
  set_option maxRecDepth 1000000 in decide

/-- C19. Index safety: for every byte value `b` (indeed for every number), the index
`int(b) % len(charset)` lies in `[0, 64)` and the charset lookup at it is in bounds, in
both copies of `generateRandomSecret`; the loop over the `n` bytes read maps each of them,
giving `n` characters, and the function never panics, for every length and entropy
state. -/
theorem C19_index_safety (b : Nat) :
    (b % secrets.generateRandomSecret.charset.length < 64
      ∧ (secrets.generateRandomSecret.charset.toList[
          b % secrets.generateRandomSecret.charset.length]?).isSome = true)
    ∧ (b % main.generateRandomSecret.charset.length < 64
      ∧ (main.generateRandomSecret.charset.toList[
          b % main.generateRandomSecret.charset.length]?).isSome = true)
    ∧ (∀ (e e' : Entropy) (n : Nat) (bs : List Nat), rand.Read e n = (e', .ok bs) →
        ∃ cs, secrets.generateRandomSecret.translate bs = some cs ∧ cs.length = n
          ∧ main.generateRandomSecret.translate bs = some cs)
    ∧ (∀ (e : Entropy) (n : Nat),
        (secrets.generateRandomSecret e n).2 ≠ none
          ∧ (main.generateRandomSecret e n).2 ≠ none) := by
  have hidx : b % secrets.generateRandomSecret.charset.length < 64
      ∧ (secrets.generateRandomSecret.charset.toList[
          b % secrets.generateRandomSecret.charset.length]?).isSome = true := by
    refine ⟨?_, ?_⟩
    · rw [secrets.charset_length]; exact Nat.mod_lt b (by norm_num)
    · rw [secrets.charset_index]; rfl
  refine ⟨hidx, hidx, ?_, ?_⟩
  · intro e e' n bs hread
    refine ⟨bs.map secrets.generateRandomSecret.symbol, secrets.translate_eq bs, ?_, ?_⟩
    · simp [(secrets.read_length e e' n bs hread).1]
    · rw [main.translate_eq_secrets]; exact secrets.translate_eq bs
  · intro e n
    have hs : (secrets.generateRandomSecret e n).2 ≠ none := by
      rcases secrets.generate_cases e n with ⟨e', bs, _, h⟩ | ⟨e', err, _, h⟩ <;>
        rw [h] <;> simp
    exact ⟨hs, by rw [main.generate_eq_secrets]; exact hs⟩

/-! ## The repair branch and the trace of a pass -/

/-- C17. Repair changes only the cookie: in the repair branch the Secret passed to `Update`
is the Secret `Get` returned with `StringData["cookie-secret"]` set to the token just
generated: name, namespace, labels, type and `Data` are those of the Secret read, and so
is every other key of `StringData`; the labels of the descriptor are not applied. -/
theorem C17_repair_changes_only_cookie {σ : Type} (c : client.Client σ) (ns : String)
    (s : secrets.Descriptor) (r : Run σ) (st st' : σ) (secret : corev1.Secret)
    (e : Entropy) (bs : List Nat) (res : Option GoError)
    (hget : c.Get r.store ns s.name = (st, .ok secret))
    (hunset : secrets.EnsureOAuthSecrets.unset secret = true)
    (hread : rand.Read r.entropy 32 = (e, .ok bs))
    (hupdate : c.Update st (secrets.EnsureOAuthSecrets.withCookie secret
      (secrets.generateRandomSecret.token bs)) = (st', res)) :
    ∃ updated : corev1.Secret,
      (secrets.EnsureOAuthSecrets.body c ns s r).1.calls
        = r.calls ++ [client.Call.get ns s.name, client.Call.update updated]
      ∧ secrets.generateRandomSecret r.entropy 32
          = (e, some (secrets.generateRandomSecret.token bs, none))
      ∧ updated.Name = secret.Name ∧ updated.Namespace = secret.Namespace
      ∧ updated.Labels = secret.Labels ∧ updated.SecretType = secret.SecretType
      ∧ updated.Data = secret.Data
      ∧ GoMap.lookup updated.StringData "cookie-secret"
          = some (secrets.generateRandomSecret.token bs)
      ∧ (∀ k, k ≠ "cookie-secret" →
          GoMap.lookup updated.StringData k = GoMap.lookup secret.StringData k)
      ∧ (secret.Labels ≠ s.labels → updated.Labels ≠ s.labels) := by
  refine ⟨secrets.EnsureOAuthSecrets.withCookie secret (secrets.generateRandomSecret.token bs),
    ?_, secrets.generate_ok _ _ _ _ hread, rfl, rfl, rfl, rfl, rfl, ?_, ?_, fun h => h⟩
  · rw [secrets.body_empty_update c ns s r st st' secret e bs res hget hunset hread hupdate]
  · exact GoMap.lookup_store_same _ _ _
  · intro k hk
    exact GoMap.lookup_store_other _ _ _ _ (Ne.symm hk)

/-- C17 on a store that holds the first Secret with other labels, another `Data` key and
an empty cookie. -/
theorem C17_repair_changes_only_cookie_witness :
    ∃ updated : corev1.Secret,
      (secrets.EnsureOAuthSecrets.body apiserver.client "ns" secrets.webui
          ⟨⟨[⟨"ado-webui-oauth-proxy", "ns", [("team", "x")], "Opaque",
              [("other", [1]), ("cookie-secret", [])], [("note", "n")]⟩], []⟩,
            ⟨fun i => i, []⟩, []⟩).1.calls
        = [] ++ [client.Call.get "ns" "ado-webui-oauth-proxy", client.Call.update updated]
      ∧ secrets.generateRandomSecret ⟨fun i => i, []⟩ 32
          = (rand.advance ⟨fun i => i, []⟩ 32,
              some (secrets.generateRandomSecret.token (rand.bytes ⟨fun i => i, []⟩ 32), none))
      ∧ updated.Name = "ado-webui-oauth-proxy" ∧ updated.Namespace = "ns"
      ∧ updated.Labels = [("team", "x")] ∧ updated.SecretType = "Opaque"
      ∧ updated.Data = [("other", [1]), ("cookie-secret", [])]
      ∧ GoMap.lookup updated.StringData "cookie-secret"
          = some (secrets.generateRandomSecret.token (rand.bytes ⟨fun i => i, []⟩ 32))
      ∧ (∀ k, k ≠ "cookie-secret" →
          GoMap.lookup updated.StringData k = GoMap.lookup [("note", "n")] k)
      ∧ ([("team", "x")] ≠ secrets.webui.labels → updated.Labels ≠ secrets.webui.labels) :=
  C17_repair_changes_only_cookie apiserver.client "ns" secrets.webui
    ⟨⟨[⟨"ado-webui-oauth-proxy", "ns", [("team", "x")], "Opaque",
        [("other", [1]), ("cookie-secret", [])], [("note", "n")]⟩], []⟩,
      ⟨fun i => i, []⟩, []⟩
    ⟨[⟨"ado-webui-oauth-proxy", "ns", [("team", "x")], "Opaque",
        [("other", [1]), ("cookie-secret", [])], [("note", "n")]⟩], []⟩
    _
    ⟨"ado-webui-oauth-proxy", "ns", [("team", "x")], "Opaque",
      [("other", [1]), ("cookie-secret", [])], [("note", "n")]⟩
    (rand.advance ⟨fun i => i, []⟩ 32) (rand.bytes ⟨fun i => i, []⟩ 32) none
    rfl (by decide) rfl rfl

namespace secrets

variable {σ : Type}

/-- The calls of an iteration, for any client: its `Get`, then at most one write. -/
theorem body_trace (c : client.Client σ) (ns : String) (s : Descriptor) (r : Run σ) :
    ∃ w : List client.Call,
      (EnsureOAuthSecrets.body c ns s r).1.calls = r.calls ++ client.Call.get ns s.name :: w
      ∧ w.length ≤ 1 ∧ ∀ x ∈ w, EnsureOAuthSecrets.WriteOf c ns s r x := by
  rcases body_cases c ns s r with
    ⟨st, g, hget, hnf⟩ | ⟨st, nf, e, g, hget, hnf, hread⟩
    | ⟨st, nf, e, bs, st', res, hget, hnf, hread, hc⟩ | ⟨st, secret, hget, hset⟩
    | ⟨st, secret, e, g, hget, hun, hread⟩
    | ⟨st, secret, e, bs, st', res, hget, hun, hread, hu⟩
  · rw [body_fetchError c ns s r st g hget hnf]
    exact ⟨[], rfl, by simp, by simp⟩
  · rw [body_missing_generationError c ns s r st nf e g hget hnf hread]
    exact ⟨[], rfl, by simp, by simp⟩
  · rw [body_missing_create c ns s r st st' nf e bs res hget hnf hread hc]
    refine ⟨[client.Call.create (EnsureOAuthSecrets.newSecret ns s
      (generateRandomSecret.token bs))], rfl, by simp, ?_⟩
    intro x hx
    rw [List.mem_singleton] at hx
    exact Or.inl ⟨_, hx⟩
  · rw [body_present_set c ns s r st secret hget hset]
    exact ⟨[], rfl, by simp, by simp⟩
  · rw [body_empty_generationError c ns s r st secret e g hget hun hread]
    exact ⟨[], rfl, by simp, by simp⟩
  · rw [body_empty_update c ns s r st st' secret e bs res hget hun hread hu]
    refine ⟨[client.Call.update (EnsureOAuthSecrets.withCookie secret
      (generateRandomSecret.token bs))], rfl, by simp, ?_⟩
    intro x hx
    rw [List.mem_singleton] at hx
    exact Or.inr ⟨st, secret, _, hget, hx⟩

theorem writeOf_isWrite (c : client.Client σ) (ns : String) (s : Descriptor) (r : Run σ)
    (x : client.Call) (h : EnsureOAuthSecrets.WriteOf c ns s r x) :
    x.isWrite = true ∧ x.isGet = false := by
  rcases h with ⟨tok, rfl⟩ | ⟨st, secret, tok, _, rfl⟩ <;> exact ⟨rfl, rfl⟩

/-- The filters of a list of at most one write. -/
theorem writes_filter (c : client.Client σ) (ns : String) (s : Descriptor) (r : Run σ)
    (w : List client.Call) (hw : ∀ x ∈ w, EnsureOAuthSecrets.WriteOf c ns s r x) :
    w.filter client.Call.isGet = [] ∧ w.filter client.Call.isWrite = w := by
  constructor
  · rw [List.filter_eq_nil_iff]
    intro x hx
    simp [(writeOf_isWrite c ns s r x (hw x hx)).2]
  · rw [List.filter_eq_self]
    intro x hx
    exact (writeOf_isWrite c ns s r x (hw x hx)).1

end secrets

namespace apiserver

open secrets

/-- The writes of an iteration on the object of a given name: at most one, and none when
the name is not the descriptor's. -/
theorem body_writes (ns : String) (s : Descriptor) (r : Run Cluster) (name : String) :
    ∃ w : List client.Call,
      (EnsureOAuthSecrets.body client ns s r).1.calls.filter (client.Call.writes ns name)
        = r.calls.filter (client.Call.writes ns name) ++ w
      ∧ w.length ≤ 1 ∧ (s.name ≠ name → w = []) := by
  by_cases hname : s.name = name
  · subst hname
    rcases body_calls ns s r with h | ⟨obj, hns, hnm, h | h⟩
    · exact ⟨[], by rw [h]; simp [client.Call.writes], by simp, fun _ => rfl⟩
    · exact ⟨[client.Call.create obj], by rw [h]; simp [client.Call.writes, hns, hnm],
        by simp, fun hne => absurd rfl hne⟩
    · exact ⟨[client.Call.update obj], by rw [h]; simp [client.Call.writes, hns, hnm],
        by simp, fun hne => absurd rfl hne⟩
  · exact ⟨[], by rw [body_writes_other ns s r name hname]; simp, by simp, fun _ => rfl⟩

/-- A pass writes the object of any one name at most once. -/
theorem ensure_writes_le (ns : String) (cl : Cluster) (e : Entropy) (name : String) :
    ((EnsureOAuthSecrets client ns cl e).1.calls.filter
      (client.Call.writes ns name)).length ≤ 1 := by
  obtain ⟨w₁, h₁, hl₁, hn₁⟩ := body_writes ns webui ⟨cl, e, []⟩ name
  simp only [List.filter_nil, List.nil_append] at h₁
  rcases ensure_run client ns cl e with hrun | hrun
  · rw [hrun, h₁]; exact hl₁
  · obtain ⟨w₂, h₂, hl₂, hn₂⟩ := body_writes ns buildapi
      (EnsureOAuthSecrets.body client ns webui ⟨cl, e, []⟩).1 name
    rw [hrun, h₂, h₁, List.length_append]
    by_cases hname : webui.name = name
    · have : buildapi.name ≠ name := fun hb => names_ne (hname.trans hb.symm)
      rw [hn₂ this]; simpa using hl₁
    · rw [hn₁ hname]; simpa using hl₂

end apiserver

/-- C16. Strictly sequential, retry-free trace: for every client, whatever it answers, the
calls of a pass are the `Get` of the first name, then at most one write for it (the
`Create` of its new Secret or the `Update` of the Secret read, never both) and, only when
the first iteration reached its end, the `Get` of the second name and at most one write
for it; so the `Get`s are in table order, a write for the first name precedes the `Get`
of the second, a pass issues at most 2 `Get`s and at most 2 writes, and nothing follows an
iteration that failed. On the Secret store the object of any one name is written at most
once in a pass. -/
theorem C16_sequential_trace {σ : Type} (c : client.Client σ) (ns : String) (st : σ)
    (e : Entropy) :
    ∃ w₁ w₂ : List client.Call,
      w₁.length ≤ 1 ∧ w₂.length ≤ 1
      ∧ (∀ x ∈ w₁, secrets.EnsureOAuthSecrets.WriteOf c ns secrets.webui ⟨st, e, []⟩ x)
      ∧ (∀ x ∈ w₂, secrets.EnsureOAuthSecrets.WriteOf c ns secrets.buildapi
          (secrets.EnsureOAuthSecrets.body c ns secrets.webui ⟨st, e, []⟩).1 x)
      ∧ (((secrets.EnsureOAuthSecrets.body c ns secrets.webui ⟨st, e, []⟩).2 ≠ .nil
          ∧ (secrets.EnsureOAuthSecrets c ns st e).1.calls
              = client.Call.get ns "ado-webui-oauth-proxy" :: w₁)
        ∨ ((secrets.EnsureOAuthSecrets.body c ns secrets.webui ⟨st, e, []⟩).2 = .nil
          ∧ (secrets.EnsureOAuthSecrets c ns st e).1.calls
              = client.Call.get ns "ado-webui-oauth-proxy" :: w₁
                ++ client.Call.get ns "ado-build-api-oauth-proxy" :: w₂))
      ∧ ((secrets.EnsureOAuthSecrets c ns st e).1.calls.filter client.Call.isGet
            = [client.Call.get ns "ado-webui-oauth-proxy"]
          ∨ (secrets.EnsureOAuthSecrets c ns st e).1.calls.filter client.Call.isGet
            = [client.Call.get ns "ado-webui-oauth-proxy",
                client.Call.get ns "ado-build-api-oauth-proxy"])
      ∧ ((secrets.EnsureOAuthSecrets c ns st e).1.calls.filter client.Call.isWrite).length
          ≤ 2
      ∧ ∀ (cl : apiserver.Cluster) (name : String),
          ((secrets.EnsureOAuthSecrets apiserver.client ns cl e).1.calls.filter
            (client.Call.writes ns name)).length ≤ 1 := by
  obtain ⟨w₁, hc₁, hl₁, hw₁⟩ := secrets.body_trace c ns secrets.webui ⟨st, e, []⟩
  obtain ⟨hg₁, hf₁⟩ := secrets.writes_filter c ns secrets.webui _ w₁ hw₁
  rcases h1 : secrets.EnsureOAuthSecrets.body c ns secrets.webui ⟨st, e, []⟩ with ⟨r1, ret1⟩
  rw [h1] at hc₁
  simp only [List.nil_append] at hc₁
  by_cases hret : ret1 = .nil
  · subst hret
    obtain ⟨w₂, hc₂, hl₂, hw₂⟩ := secrets.body_trace c ns secrets.buildapi r1
    obtain ⟨hg₂, hf₂⟩ := secrets.writes_filter c ns secrets.buildapi _ w₂ hw₂
    have hcalls : (secrets.EnsureOAuthSecrets c ns st e).1.calls
        = client.Call.get ns "ado-webui-oauth-proxy" :: w₁
          ++ client.Call.get ns "ado-build-api-oauth-proxy" :: w₂ := by
      rw [secrets.ensure_first_nil c ns st e r1 h1, hc₂, hc₁]
      rfl
    refine ⟨w₁, w₂, hl₁, hl₂, hw₁, hw₂, Or.inr ⟨rfl, hcalls⟩, Or.inr ?_, ?_,
      fun cl name => apiserver.ensure_writes_le ns cl e name⟩
    · rw [hcalls]
      simp [List.filter_cons, client.Call.isGet, hg₁, hg₂]
    · rw [hcalls]
      simp only [List.filter_append, List.filter_cons, client.Call.isWrite, hf₁, hf₂,
        List.length_append]
      simp
      omega
  · have hrun : secrets.EnsureOAuthSecrets c ns st e = (r1, ret1) := by
      rw [secrets.ensure_unfold, h1]
      cases ret1 with
      | nil => exact absurd rfl hret
      | error err => rfl
      | panic => rfl
    have hcalls : (secrets.EnsureOAuthSecrets c ns st e).1.calls
        = client.Call.get ns "ado-webui-oauth-proxy" :: w₁ := by
      rw [hrun, hc₁]
      rfl
    refine ⟨w₁, [], hl₁, by simp, hw₁, by simp, Or.inl ⟨hret, hcalls⟩, Or.inl ?_, ?_,
      fun cl name => apiserver.ensure_writes_le ns cl e name⟩
    · rw [hcalls]
      simp [List.filter_cons, client.Call.isGet, hg₁]
    · rw [hcalls]
      simp only [List.filter_cons, client.Call.isWrite, hf₁]
      simp
      omega

/-! ## What a pass leaves alone -/

namespace apiserver

open secrets

theorem put_filter (p : corev1.Secret → Bool) (objs : List corev1.Secret) (obj : corev1.Secret)
    (hp : ∀ o : corev1.Secret, o.Namespace = obj.Namespace → o.Name = obj.Name → p o = false) :
    (put objs obj).filter p = objs.filter p := by
  induction objs with
  | nil => simp [put, hp obj rfl rfl]
  | cons o rest ih =>
    by_cases h : o.Namespace = obj.Namespace ∧ o.Name = obj.Name
    · simp [put, h, List.filter_cons, hp obj rfl rfl, hp o h.1 h.2]
    · simp [put, h, List.filter_cons, ih]

theorem put_length (objs : List corev1.Secret) (obj : corev1.Secret) :
    objs.length ≤ (put objs obj).length := by
  induction objs with
  | nil => simp [put]
  | cons o rest ih =>
    by_cases h : o.Namespace = obj.Namespace ∧ o.Name = obj.Name
    · simp [put, h]
    · simp [put, h, ih]

theorem find_put_isSome (objs : List corev1.Secret) (obj : corev1.Secret) (ns name : String)
    (h : (find objs ns name).isSome = true) : (find (put objs obj) ns name).isSome = true := by
  by_cases hk : obj.Namespace = ns ∧ obj.Name = name
  · rw [← hk.1, ← hk.2, find_put_same]; rfl
  · rw [find_put_other objs obj ns name hk]; exact h

theorem foreign_of_key (ns : String) (s : Descriptor) (hs : s = webui ∨ s = buildapi)
    (o : corev1.Secret) (hns : o.Namespace = ns) (hname : o.Name = s.name) :
    foreign ns o = false := by
  rcases hs with rfl | rfl <;> simp [foreign, hns, hname, webui, buildapi]

/-- The objects an iteration leaves: those it found, or those with one object of the
descriptor's name put in. -/
theorem body_objects (ns : String) (s : Descriptor) (r : Run Cluster) :
    (EnsureOAuthSecrets.body client ns s r).1.store.objects = r.store.objects
    ∨ ∃ obj : corev1.Secret, obj.Namespace = ns ∧ obj.Name = s.name
        ∧ (EnsureOAuthSecrets.body client ns s r).1.store.objects = put r.store.objects obj := by
  rcases hb : EnsureOAuthSecrets.body client ns s r with ⟨r', ret⟩
  cases ret with
  | panic => exact absurd (congrArg Prod.snd hb) (body_ne_panic client ns s r)
  | error err => exact Or.inl (body_error ns s r r' err hb)
  | nil =>
    rcases body_nil ns s r r' hb with
      ⟨obj, _, _, hobjs, _, _⟩ | ⟨obj, e, bs, hfind, _, _, hobjs, _, _⟩
      | ⟨e, bs, _, _, hobjs, _, _⟩
    · exact Or.inl hobjs
    · have hk := find_key _ _ _ _ hfind
      exact Or.inr ⟨persisted (EnsureOAuthSecrets.withCookie obj (generateRandomSecret.token bs)),
        hk.1, hk.2, hobjs⟩
    · exact Or.inr ⟨persisted (EnsureOAuthSecrets.newSecret ns s (generateRandomSecret.token bs)),
        rfl, rfl, hobjs⟩

/-- What an iteration for a name of the table keeps: no key is lost, no object is dropped,
the foreign objects are the same, and every new call targets the name in the namespace. -/
theorem body_keeps (ns : String) (s : Descriptor) (hs : s = webui ∨ s = buildapi)
    (r : Run Cluster) :
    (∀ ns' name', (find r.store.objects ns' name').isSome = true →
        (find (EnsureOAuthSecrets.body client ns s r).1.store.objects ns' name').isSome = true)
    ∧ r.store.objects.length ≤ (EnsureOAuthSecrets.body client ns s r).1.store.objects.length
    ∧ (EnsureOAuthSecrets.body client ns s r).1.store.objects.filter (foreign ns)
        = r.store.objects.filter (foreign ns)
    ∧ ∀ call ∈ (EnsureOAuthSecrets.body client ns s r).1.calls,
        call ∈ r.calls ∨ call.target = (ns, s.name) := by
  refine ⟨?_, ?_, ?_, ?_⟩
  · intro ns' name' h
    rcases body_objects ns s r with hobjs | ⟨obj, _, _, hobjs⟩
    · rw [hobjs]; exact h
    · rw [hobjs]; exact find_put_isSome _ _ _ _ h
  · rcases body_objects ns s r with hobjs | ⟨obj, _, _, hobjs⟩
    · rw [hobjs]
    · rw [hobjs]; exact put_length _ _
  · rcases body_objects ns s r with hobjs | ⟨obj, hns, hname, hobjs⟩
    · rw [hobjs]
    · rw [hobjs]
      apply put_filter
      intro o ho₁ ho₂
      exact foreign_of_key ns s hs o (ho₁.trans hns) (ho₂.trans hname)
  · intro call hcall
    rcases body_calls ns s r with h | ⟨obj, hns, hname, h | h⟩ <;> rw [h] at hcall <;>
      simp only [List.mem_append, List.mem_cons, List.mem_singleton, List.not_mem_nil,
        or_false] at hcall
    · rcases hcall with hc | rfl
      · exact Or.inl hc
      · exact Or.inr rfl
    · rcases hcall with hc | rfl | rfl
      · exact Or.inl hc
      · exact Or.inr rfl
      · exact Or.inr (by simp [client.Call.target, hns, hname])
    · rcases hcall with hc | rfl | rfl
      · exact Or.inl hc
      · exact Or.inr rfl
      · exact Or.inr (by simp [client.Call.target, hns, hname])

end apiserver

/-- C13. No deletion and no touching of foreign Secrets: in every pass, however it ends,
every `Get`, `Create` and `Update` targets one of the two names of the table in the
namespace argument; every namespace and name stored before is stored after and the store
holds no fewer objects; and the Secrets of another namespace or of a name outside the
table are the same before and after. -/
theorem C13_no_foreign_touch (ns : String) (cl : apiserver.Cluster) (e : Entropy) :
    (∀ call ∈ (secrets.EnsureOAuthSecrets apiserver.client ns cl e).1.calls,
        call.target = (ns, "ado-webui-oauth-proxy")
          ∨ call.target = (ns, "ado-build-api-oauth-proxy"))
    ∧ (∀ ns' name', (apiserver.find cl.objects ns' name').isSome = true →
        (apiserver.find (secrets.EnsureOAuthSecrets apiserver.client ns cl e).1.store.objects
          ns' name').isSome = true)
    ∧ cl.objects.length
        ≤ (secrets.EnsureOAuthSecrets apiserver.client ns cl e).1.store.objects.length
    ∧ (secrets.EnsureOAuthSecrets apiserver.client ns cl e).1.store.objects.filter
          (apiserver.foreign ns)
        = cl.objects.filter (apiserver.foreign ns)
    ∧ (∀ ns' name',
        ¬ (ns' = ns ∧ (name' = "ado-webui-oauth-proxy" ∨ name' = "ado-build-api-oauth-proxy")) →
        apiserver.find (secrets.EnsureOAuthSecrets apiserver.client ns cl e).1.store.objects
          ns' name' = apiserver.find cl.objects ns' name') := by
  obtain ⟨hk₁, hl₁, hf₁, hc₁⟩ := apiserver.body_keeps ns secrets.webui (Or.inl rfl) ⟨cl, e, []⟩
  obtain ⟨hk₂, hl₂, hf₂, hc₂⟩ := apiserver.body_keeps ns secrets.buildapi (Or.inr rfl)
    (secrets.EnsureOAuthSecrets.body apiserver.client ns secrets.webui ⟨cl, e, []⟩).1
  have hframe : ∀ (s : secrets.Descriptor), (s = secrets.webui ∨ s = secrets.buildapi) →
      ∀ (r : Run apiserver.Cluster) (ns' name' : String),
      ¬ (ns' = ns ∧ (name' = "ado-webui-oauth-proxy" ∨ name' = "ado-build-api-oauth-proxy")) →
      apiserver.find (secrets.EnsureOAuthSecrets.body apiserver.client ns s r).1.store.objects
        ns' name' = apiserver.find r.store.objects ns' name' := by
    intro s hs r ns' name' hne
    apply apiserver.body_frame
    rintro ⟨rfl, rfl⟩
    rcases hs with rfl | rfl
    · exact hne ⟨rfl, Or.inl rfl⟩
    · exact hne ⟨rfl, Or.inr rfl⟩
  rcases secrets.ensure_run apiserver.client ns cl e with hrun | hrun
  · rw [hrun]
    refine ⟨?_, hk₁, hl₁, hf₁, hframe _ (Or.inl rfl) _⟩
    intro call hcall
    rcases hc₁ call hcall with h | h
    · simp at h
    · exact Or.inl h
  · rw [hrun]
    refine ⟨?_, fun ns' name' h => hk₂ ns' name' (hk₁ ns' name' h), le_trans hl₁ hl₂,
      hf₂.trans hf₁, ?_⟩
    · intro call hcall
      rcases hc₂ call hcall with h | h
      · rcases hc₁ call h with h' | h'
        · simp at h'
        · exact Or.inl h'
      · exact Or.inr h
    · intro ns' name' hne
      rw [hframe _ (Or.inr rfl) _ ns' name' hne, hframe _ (Or.inl rfl) _ ns' name' hne]

/-- C18. No rollback on partial failure: when the iteration for the first name reached its
end with a write (it created or repaired the Secret) and the iteration for the second name
returns an error, whatever step of it failed, `EnsureOAuthSecrets` returns that error, and
the store still holds the first Secret as that write left it, with the bytes of the
32-character token of this pass under `Data["cookie-secret"]`: the write is not undone. -/
theorem C18_no_rollback (ns : String) (cl : apiserver.Cluster) (e : Entropy)
    (r₁ r₂ : Run apiserver.Cluster) (err : GoError)
    (h₁ : secrets.EnsureOAuthSecrets.body apiserver.client ns secrets.webui ⟨cl, e, []⟩
      = (r₁, .nil))
    (hw : r₁.calls.filter client.Call.isWrite ≠ [])
    (h₂ : secrets.EnsureOAuthSecrets.body apiserver.client ns secrets.buildapi r₁
      = (r₂, .error err)) :
    secrets.EnsureOAuthSecrets apiserver.client ns cl e = (r₂, .error err)
    ∧ ∃ (token : String) (stored : corev1.Secret),
        (r₁.calls = [client.Call.get ns "ado-webui-oauth-proxy",
            client.Call.create (secrets.EnsureOAuthSecrets.newSecret ns secrets.webui token)]
          ∨ ∃ obj, r₁.calls = [client.Call.get ns "ado-webui-oauth-proxy",
            client.Call.update (secrets.EnsureOAuthSecrets.withCookie obj token)])
        ∧ token.length = 32
        ∧ apiserver.find r₁.store.objects ns "ado-webui-oauth-proxy" = some stored
        ∧ apiserver.find r₂.store.objects ns "ado-webui-oauth-proxy" = some stored
        ∧ GoMap.lookup stored.Data "cookie-secret" = some (token.toList.map Char.toNat) := by
  have hobjs₂ := apiserver.body_error ns secrets.buildapi r₁ r₂ err h₂
  refine ⟨by rw [secrets.ensure_first_nil apiserver.client ns cl e r₁ h₁, h₂], ?_⟩
  rcases apiserver.body_nil ns secrets.webui _ r₁ h₁ with
    ⟨obj, _, _, _, _, hcalls⟩ | ⟨obj, e', bs, hfind, _, hread, hobjs, _, hcalls⟩
    | ⟨e', bs, _, hread, hobjs, _, hcalls⟩
  · rw [hcalls] at hw
    simp [client.Call.isWrite] at hw
  · obtain ⟨hlen, _, hbytes⟩ := apiserver.token_facts _ _ _ hread
    have hk := apiserver.find_key _ _ _ _ hfind
    have hstored : apiserver.find r₁.store.objects ns "ado-webui-oauth-proxy"
        = some (apiserver.persisted (secrets.EnsureOAuthSecrets.withCookie obj
            (secrets.generateRandomSecret.token bs))) := by
      have := apiserver.find_put_same cl.objects
        (apiserver.persisted (secrets.EnsureOAuthSecrets.withCookie obj
          (secrets.generateRandomSecret.token bs)))
      rw [hobjs]
      rw [show (apiserver.persisted (secrets.EnsureOAuthSecrets.withCookie obj
          (secrets.generateRandomSecret.token bs))).Namespace = ns from hk.1,
        show (apiserver.persisted (secrets.EnsureOAuthSecrets.withCookie obj
          (secrets.generateRandomSecret.token bs))).Name = "ado-webui-oauth-proxy" from hk.2]
        at this
      exact this
    refine ⟨secrets.generateRandomSecret.token bs, _, Or.inr ⟨obj, hcalls⟩, hlen, hstored,
      by rw [hobjs₂]; exact hstored, ?_⟩
    rw [apiserver.persisted_withCookie, hbytes]
  · obtain ⟨hlen, _, hbytes⟩ := apiserver.token_facts _ _ _ hread
    have hstored : apiserver.find r₁.store.objects ns "ado-webui-oauth-proxy"
        = some (apiserver.persisted (secrets.EnsureOAuthSecrets.newSecret ns secrets.webui
            (secrets.generateRandomSecret.token bs))) := by
      rw [hobjs]
      exact apiserver.find_put_same cl.objects
        (apiserver.persisted (secrets.EnsureOAuthSecrets.newSecret ns secrets.webui
          (secrets.generateRandomSecret.token bs)))
    refine ⟨secrets.generateRandomSecret.token bs, _, Or.inl hcalls, hlen, hstored,
      by rw [hobjs₂]; exact hstored, ?_⟩
    rw [apiserver.persisted_newSecret, hbytes]

/-- C18 on the empty store whose third call, the `Get` of the second name, times out. -/
theorem C18_no_rollback_witness :
    secrets.EnsureOAuthSecrets apiserver.client "ns" ⟨[], [none, none, some "timeout"]⟩
        ⟨fun i => i, []⟩
      = ((secrets.EnsureOAuthSecrets.body apiserver.client "ns" secrets.buildapi
            (secrets.EnsureOAuthSecrets.body apiserver.client "ns" secrets.webui
              ⟨⟨[], [none, none, some "timeout"]⟩, ⟨fun i => i, []⟩, []⟩).1).1,
          .error (Errorf "failed to get secret " "ado-build-api-oauth-proxy"
            (.base false "timeout"))) :=
  (C18_no_rollback "ns" ⟨[], [none, none, some "timeout"]⟩ ⟨fun i => i, []⟩
    (secrets.EnsureOAuthSecrets.body apiserver.client "ns" secrets.webui
      ⟨⟨[], [none, none, some "timeout"]⟩, ⟨fun i => i, []⟩, []⟩).1
    (secrets.EnsureOAuthSecrets.body apiserver.client "ns" secrets.buildapi
      (secrets.EnsureOAuthSecrets.body apiserver.client "ns" secrets.webui
        ⟨⟨[], [none, none, some "timeout"]⟩, ⟨fun i => i, []⟩, []⟩).1).1
    (Errorf "failed to get secret " "ado-build-api-oauth-proxy" (.base false "timeout"))
    rfl (by decide) rfl).1

/-! ## The two tokens of a pass on the empty store -/

namespace secrets

theorem read_ok (e e' : Entropy) (n : Nat) (bs : List Nat)
    (h : rand.Read e n = (e', .ok bs)) : bs = rand.bytes e n ∧ e' = rand.advance e n := by
  unfold rand.Read at h
  split at h
  · cases h
  · cases h; exact ⟨rfl, rfl⟩

/-- Two bytes are mapped to the same symbol exactly when they agree modulo 64. -/
theorem symbol_eq_iff (a b : Nat) :
    generateRandomSecret.symbol a = generateRandomSecret.symbol b ↔ a % 64 = b % 64 := by
  have key : ∀ i < 64, ∀ j < 64,
      (generateRandomSecret.charset.toList[i]?).getD 'A'
        = (generateRandomSecret.charset.toList[j]?).getD 'A' → i = j := by
    set_option maxRecDepth 100000 in decide
  constructor
  · intro h
    exact key (a % 64) (Nat.mod_lt a (by norm_num)) (b % 64) (Nat.mod_lt b (by norm_num)) h
  · intro h
    unfold generateRandomSecret.symbol
    rw [h]

/-- The tokens of two successive reads of 32 bytes are equal exactly when the two blocks of
the stream agree modulo 64 at every position. -/
theorem token_eq_iff (e e₁ e₂ : Entropy) (bs₁ bs₂ : List Nat)
    (h₁ : rand.Read e 32 = (e₁, .ok bs₁)) (h₂ : rand.Read e₁ 32 = (e₂, .ok bs₂)) :
    generateRandomSecret.token bs₁ = generateRandomSecret.token bs₂
      ↔ ∀ i, i < 32 → e.stream i % 64 = e.stream (i + 32) % 64 := by
  obtain ⟨rfl, rfl⟩ := read_ok e e₁ 32 bs₁ h₁
  obtain ⟨rfl, _⟩ := read_ok _ e₂ 32 bs₂ h₂
  unfold generateRandomSecret.token rand.bytes rand.advance
  rw [String.ext_iff]
  show List.map generateRandomSecret.symbol
      (List.map (fun i => e.stream i % 256) (List.range 32))
    = List.map generateRandomSecret.symbol
      (List.map (fun i => e.stream (i + 32) % 256) (List.range 32)) ↔ _
  rw [List.map_map, List.map_map, List.map_inj_left]
  constructor
  · intro h i hi
    have := (symbol_eq_iff _ _).1 (h i (List.mem_range.2 hi))
    simp only [Function.comp] at this
    omega
  · intro h i hi
    apply (symbol_eq_iff _ _).2
    have := h i (List.mem_range.1 hi)
    simp only [Function.comp]
    omega

end secrets

namespace apiserver

open secrets

/-- A pass on the empty store, with an entropy source that supplies both reads: `Get`,
`Create`, `Get`, `Create`, and nil. -/
theorem ensure_empty (ns : String) (e e₁ e₂ : Entropy) (bs₁ bs₂ : List Nat)
    (h₁ : rand.Read e 32 = (e₁, .ok bs₁)) (h₂ : rand.Read e₁ 32 = (e₂, .ok bs₂)) :
    EnsureOAuthSecrets client ns ⟨[], []⟩ e
      = (⟨⟨[persisted (EnsureOAuthSecrets.newSecret ns webui (generateRandomSecret.token bs₁)),
            persisted (EnsureOAuthSecrets.newSecret ns buildapi
              (generateRandomSecret.token bs₂))], []⟩,
          e₂,
          [client.Call.get ns "ado-webui-oauth-proxy",
            client.Call.create
              (EnsureOAuthSecrets.newSecret ns webui (generateRandomSecret.token bs₁)),
            client.Call.get ns "ado-build-api-oauth-proxy",
            client.Call.create
              (EnsureOAuthSecrets.newSecret ns buildapi (generateRandomSecret.token bs₂))]⟩,
        .nil) := by
  have hne : ¬ ("ado-webui-oauth-proxy" = "ado-build-api-oauth-proxy") := by decide
  simp [EnsureOAuthSecrets, secrets_eq, EnsureOAuthSecrets.loop, EnsureOAuthSecrets.body,
    client, Get, Create, find, put, IsNotFound, generate_ok _ _ _ _ h₁,
    generate_ok _ _ _ _ h₂, EnsureOAuthSecrets.newSecret, persisted, webui, buildapi, hne]

end apiserver

/-- C15, as stated, fails: with an entropy source that delivers the byte 0 throughout, a
pass on the empty store returns nil and creates both Secrets with the same cookie. -/
theorem C15_distinct_values_counterexample :
    (secrets.EnsureOAuthSecrets apiserver.client "ns" ⟨[], []⟩ ⟨fun _ => 0, []⟩).2 = .nil
    ∧ (secrets.EnsureOAuthSecrets apiserver.client "ns" ⟨[], []⟩ ⟨fun _ => 0, []⟩).1.calls
        = [client.Call.get "ns" "ado-webui-oauth-proxy",
            client.Call.create
              ⟨"ado-webui-oauth-proxy", "ns", secrets.webui.labels, "Opaque", [],
                [("cookie-secret", "AAAAAAAAAAAAAAAAAAAAAAAAAAAAAAAA")]⟩,
            client.Call.get "ns" "ado-build-api-oauth-proxy",
            client.Call.create
              ⟨"ado-build-api-oauth-proxy", "ns", secrets.buildapi.labels, "Opaque", [],
                [("cookie-secret", "AAAAAAAAAAAAAAAAAAAAAAAAAAAAAAAA")]⟩] := by
  decide

/-- C15, amended: when a pass runs on the empty store and the entropy source supplies both
reads, it creates the two Secrets with the tokens of the first and of the second block of
32 bytes of the stream, and the two cookies are different exactly when those blocks
differ modulo 64 at some position. -/
theorem C15_distinct_values (ns : String) (e e₁ e₂ : Entropy) (bs₁ bs₂ : List Nat)
    (h₁ : rand.Read e 32 = (e₁, .ok bs₁)) (h₂ : rand.Read e₁ 32 = (e₂, .ok bs₂)) :
    (secrets.EnsureOAuthSecrets apiserver.client ns ⟨[], []⟩ e).2 = .nil
    ∧ (secrets.EnsureOAuthSecrets apiserver.client ns ⟨[], []⟩ e).1.calls
        = [client.Call.get ns "ado-webui-oauth-proxy",
            client.Call.create (secrets.EnsureOAuthSecrets.newSecret ns secrets.webui
              (secrets.generateRandomSecret.token bs₁)),
            client.Call.get ns "ado-build-api-oauth-proxy",
            client.Call.create (secrets.EnsureOAuthSecrets.newSecret ns secrets.buildapi
              (secrets.generateRandomSecret.token bs₂))]
    ∧ (secrets.generateRandomSecret.token bs₁ ≠ secrets.generateRandomSecret.token bs₂
        ↔ ∃ i, i < 32 ∧ e.stream i % 64 ≠ e.stream (i + 32) % 64) := by
  rw [apiserver.ensure_empty ns e e₁ e₂ bs₁ bs₂ h₁ h₂]
  refine ⟨rfl, rfl, ?_⟩
  rw [Ne, secrets.token_eq_iff e e₁ e₂ bs₁ bs₂ h₁ h₂]
  push_neg
  rfl

/-- C15, amended, with the entropy source that delivers the bytes 0, 1, 2, ... -/
theorem C15_distinct_values_witness :
    (secrets.EnsureOAuthSecrets apiserver.client "ns" ⟨[], []⟩ ⟨fun i => i, []⟩).2 = .nil
    ∧ (secrets.generateRandomSecret.token (rand.bytes ⟨fun i => i, []⟩ 32)
        ≠ secrets.generateRandomSecret.token
            (rand.bytes (rand.advance ⟨fun i => i, []⟩ 32) 32)
        ↔ ∃ i, i < 32 ∧ i % 64 ≠ (i + 32) % 64) :=
  ⟨(C15_distinct_values "ns" ⟨fun i => i, []⟩ (rand.advance ⟨fun i => i, []⟩ 32)
      (rand.advance (rand.advance ⟨fun i => i, []⟩ 32) 32)
      (rand.bytes ⟨fun i => i, []⟩ 32)
      (rand.bytes (rand.advance ⟨fun i => i, []⟩ 32) 32) rfl rfl).1,
    (C15_distinct_values "ns" ⟨fun i => i, []⟩ (rand.advance ⟨fun i => i, []⟩ 32)
      (rand.advance (rand.advance ⟨fun i => i, []⟩ 32) 32)
      (rand.bytes ⟨fun i => i, []⟩ 32)
      (rand.bytes (rand.advance ⟨fun i => i, []⟩ 32) 32) rfl rfl).2.2⟩

/-! ## The command -/

namespace main

/-- The calls of `ensureOAuthSecret`, for any clientset: its `Get`, then at most one write,
all with the namespace it was given. -/
theorem ensure_calls {σ : Type} (clientset : kubernetes.Clientset σ) (ns secretName : String)
    (r : Run σ) :
    ∃ w : List kubernetes.Call,
      (ensureOAuthSecret clientset ns secretName r).1.calls
        = r.calls ++ kubernetes.Call.get ns secretName :: w
      ∧ w.length ≤ 1 ∧ ∀ x ∈ w, x.ns = ns := by
  rcases hget : clientset.Get r.store ns secretName with ⟨st, got⟩
  have hgen := secrets.generate_cases r.entropy 32
  cases got with
  | error err =>
    cases hnf : IsNotFound err with
    | false =>
      exact ⟨[], by simp [ensureOAuthSecret, hget, hnf], by simp, by simp⟩
    | true =>
      rcases hgen with ⟨e', bs, _, hg⟩ | ⟨e', gerr, _, hg⟩
      · rcases hc : clientset.Create st ns
            { Name := secretName, Namespace := ns, Labels := [],
              SecretType := corev1.SecretTypeOpaque, Data := [],
              StringData := [("cookie-secret", secrets.generateRandomSecret.token bs)] }
          with ⟨st', res⟩
        refine ⟨[kubernetes.Call.create ns
            { Name := secretName, Namespace := ns, Labels := [],
              SecretType := corev1.SecretTypeOpaque, Data := [],
              StringData := [("cookie-secret", secrets.generateRandomSecret.token bs)] }],
          ?_, by simp, by simp [kubernetes.Call.ns]⟩
        cases res <;>
          simp [ensureOAuthSecret, hget, hnf, generate_eq_secrets, hg, hc]
      · exact ⟨[], by simp [ensureOAuthSecret, hget, hnf, generate_eq_secrets, hg],
          by simp, by simp⟩
  | ok secret =>
    have hset : ∀ b v, GoMap.lookup secret.Data "cookie-secret" = some (b :: v) →
        (ensureOAuthSecret clientset ns secretName r).1.calls
          = r.calls ++ kubernetes.Call.get ns secretName :: [] := by
      intro b v hl
      simp [ensureOAuthSecret, hget, hl]
    have hunset : GoMap.lookup secret.Data "cookie-secret" = none
        ∨ GoMap.lookup secret.Data "cookie-secret" = some [] →
        ∃ w : List kubernetes.Call,
          (ensureOAuthSecret clientset ns secretName r).1.calls
            = r.calls ++ kubernetes.Call.get ns secretName :: w
          ∧ w.length ≤ 1 ∧ ∀ x ∈ w, x.ns = ns := by
      intro hl
      rcases hgen with ⟨e', bs, _, hg⟩ | ⟨e', gerr, _, hg⟩
      · rcases hu : clientset.Update st ns
            { secret with
              StringData := GoMap.store secret.StringData "cookie-secret"
                (secrets.generateRandomSecret.token bs) }
          with ⟨st', res⟩
        refine ⟨[kubernetes.Call.update ns
            { secret with
              StringData := GoMap.store secret.StringData "cookie-secret"
                (secrets.generateRandomSecret.token bs) }],
          ?_, by simp, by simp [kubernetes.Call.ns]⟩
        rcases hl with hl | hl <;> cases res <;>
          simp [ensureOAuthSecret, hget, hl, generate_eq_secrets, hg, hu]
      · refine ⟨[], ?_, by simp, by simp⟩
        rcases hl with hl | hl <;>
          simp [ensureOAuthSecret, hget, hl, generate_eq_secrets, hg]
    cases hl : GoMap.lookup secret.Data "cookie-secret" with
    | none => exact hunset (Or.inl hl)
    | some v =>
      cases v with
      | nil => exact hunset (Or.inr hl)
      | cons b v => exact ⟨[], hset b v hl, by simp, by simp⟩

/-- Every call the loop of `main` adds carries the namespace it works in. -/
theorem loop_calls {σ : Type} (clientset : kubernetes.Clientset σ) (ns : String)
    (names : List String) (r : Run σ) :
    ∀ call ∈ (main.loop clientset ns names r).1.calls, call ∈ r.calls ∨ call.ns = ns := by
  induction names generalizing r with
  | nil => intro call h; exact Or.inl h
  | cons name rest ih =>
    obtain ⟨w, hw, _, hns⟩ := ensure_calls clientset ns name r
    have hstep : ∀ call ∈ (ensureOAuthSecret clientset ns name r).1.calls,
        call ∈ r.calls ∨ call.ns = ns := by
      intro call hcall
      rw [hw] at hcall
      simp only [List.mem_append, List.mem_cons] at hcall
      rcases hcall with h | rfl | h
      · exact Or.inl h
      · exact Or.inr rfl
      · exact Or.inr (hns call h)
    intro call hcall
    unfold main.loop at hcall
    rcases hb : ensureOAuthSecret clientset ns name r with ⟨r', ret⟩
    rw [hb] at hcall hstep
    cases ret with
    | nil =>
      rcases ih r' call hcall with h | h
      · exact hstep call h
      · exact Or.inr h
    | error err => exact hstep call hcall
    | panic => exact hstep call hcall

/-- The first call of the loop of `main` is the `Get` of the first name. -/
theorem loop_first {σ : Type} (clientset : kubernetes.Clientset σ) (ns : String)
    (store : σ) (entropy : Entropy) :
    ∃ rest, (main.loop clientset ns main.secretsToEnsure ⟨store, entropy, []⟩).1.calls
      = kubernetes.Call.get ns "ado-webui-oauth-proxy" :: rest := by
  obtain ⟨w, hw, _, _⟩ := ensure_calls clientset ns "ado-webui-oauth-proxy"
    ⟨store, entropy, []⟩
  simp only [List.nil_append] at hw
  unfold main.secretsToEnsure main.loop
  rcases hb : ensureOAuthSecret clientset ns "ado-webui-oauth-proxy" ⟨store, entropy, []⟩
    with ⟨r', ret⟩
  rw [hb] at hw
  cases ret with
  | nil =>
    obtain ⟨w', hw', _, _⟩ := ensure_calls clientset ns "ado-build-api-oauth-proxy" r'
    simp only [main.loop]
    rcases hb' : ensureOAuthSecret clientset ns "ado-build-api-oauth-proxy" r' with ⟨r'', ret'⟩
    rw [hb'] at hw'
    have hcalls : r''.calls = kubernetes.Call.get ns "ado-webui-oauth-proxy"
        :: (w ++ kubernetes.Call.get ns "ado-build-api-oauth-proxy" :: w') := by
      have h₁ : r''.calls = r'.calls ++ kubernetes.Call.get ns "ado-build-api-oauth-proxy" :: w' :=
        hw'
      have h₂ : r'.calls = kubernetes.Call.get ns "ado-webui-oauth-proxy" :: w := hw
      rw [h₁, h₂]; rfl
    cases ret' <;> exact ⟨_, hcalls⟩
  | error err => exact ⟨w, hw⟩
  | panic => exact ⟨w, hw⟩

end main

/-- C14. Namespace selection in the command: every call `main` issues to the store, for
any clientset, carries the namespace `main` selected, and there is at least one, the `Get`
of the first name; that namespace is the value of `POD_NAMESPACE` whenever that is not
empty, whether or not `--namespace` was given, and otherwise the value of the flag, which
is `automotive-dev-operator-system` when the flag is not given. -/
theorem C14_namespace_selection {σ : Type} (clientset : kubernetes.Clientset σ)
    (flag : Option String) (podNamespace : String) (store : σ) (entropy : Entropy) :
    (∀ call ∈ (main.main flag podNamespace (.ok clientset) store entropy).1.calls,
        call.ns = main.main.namespaceOf flag podNamespace)
    ∧ (∃ rest, (main.main flag podNamespace (.ok clientset) store entropy).1.calls
        = kubernetes.Call.get (main.main.namespaceOf flag podNamespace)
            "ado-webui-oauth-proxy" :: rest)
    ∧ (podNamespace ≠ "" → main.main.namespaceOf flag podNamespace = podNamespace)
    ∧ (podNamespace = "" → ∀ value, flag = some value →
        main.main.namespaceOf flag podNamespace = value)
    ∧ (podNamespace = "" → flag = none →
        main.main.namespaceOf flag podNamespace = "automotive-dev-operator-system") := by
  have hrun : (main.main flag podNamespace (.ok clientset) store entropy).1
      = (main.main.loop clientset (main.main.namespaceOf flag podNamespace)
          main.main.secretsToEnsure ⟨store, entropy, []⟩).1 := by
    unfold main.main
    simp only []
    rcases main.main.loop clientset (main.main.namespaceOf flag podNamespace)
      main.main.secretsToEnsure ⟨store, entropy, []⟩ with ⟨r, ret⟩
    cases ret <;> rfl
  refine ⟨?_, ?_, ?_, ?_, ?_⟩
  · intro call hcall
    rw [hrun] at hcall
    rcases main.loop_calls clientset _ _ _ call hcall with h | h
    · simp at h
    · exact h
  · rw [hrun]
    exact main.loop_first clientset _ store entropy
  · intro h
    simp [main.main.namespaceOf, h]
  · rintro rfl value rfl
    simp [main.main.namespaceOf]
  · rintro rfl rfl
    simp [main.main.namespaceOf]

/-- C11, on the empty store with the entropy source that delivers the bytes 0, 1, 2, ...: the
command and the library go through the same two names in the same order and generate the
same tokens, but the Secrets the command passes to `Create` carry no labels, where the
library passes the label set of the descriptor; on a store that holds the first Secret
with an empty cookie, both pass the same Secret to `Update`. -/
theorem C11_command_creates_without_labels :
    main.main.secretsToEnsure = secrets.EnsureOAuthSecrets.secrets.map (·.name)
    ∧ (main.main.loop apiserver.clientset "ns" main.main.secretsToEnsure
        ⟨⟨[], []⟩, ⟨fun i => i, []⟩, []⟩).1.calls
      = [kubernetes.Call.get "ns" "ado-webui-oauth-proxy",
          kubernetes.Call.create "ns"
            ⟨"ado-webui-oauth-proxy", "ns", [], "Opaque", [],
              [("cookie-secret", "ABCDEFGHIJKLMNOPQRSTUVWXYZabcdef")]⟩,
          kubernetes.Call.get "ns" "ado-build-api-oauth-proxy",
          kubernetes.Call.create "ns"
            ⟨"ado-build-api-oauth-proxy", "ns", [], "Opaque", [],
              [("cookie-secret", "ghijklmnopqrstuvwxyz0123456789-_")]⟩]
    ∧ (secrets.EnsureOAuthSecrets apiserver.client "ns" ⟨[], []⟩ ⟨fun i => i, []⟩).1.calls
      = [client.Call.get "ns" "ado-webui-oauth-proxy",
          client.Call.create
            ⟨"ado-webui-oauth-proxy", "ns",
              [("app.kubernetes.io/name", "ado-webui"),
                ("app.kubernetes.io/part-of", "automotive-dev-operator")],
              "Opaque", [], [("cookie-secret", "ABCDEFGHIJKLMNOPQRSTUVWXYZabcdef")]⟩,
          client.Call.get "ns" "ado-build-api-oauth-proxy",
          client.Call.create
            ⟨"ado-build-api-oauth-proxy", "ns",
              [("app.kubernetes.io/name", "automotive-dev-operator"),
                ("app.kubernetes.io/component", "build-api")],
              "Opaque", [], [("cookie-secret", "ghijklmnopqrstuvwxyz0123456789-_")]⟩]
    ∧ (main.main.loop apiserver.clientset "ns" ["ado-webui-oauth-proxy"]
        ⟨⟨[⟨"ado-webui-oauth-proxy", "ns", [("team", "x")], "Opaque",
              [("cookie-secret", [])], []⟩], []⟩, ⟨fun i => i, []⟩, []⟩).1.calls
      = [kubernetes.Call.get "ns" "ado-webui-oauth-proxy",
          kubernetes.Call.update "ns"
            ⟨"ado-webui-oauth-proxy", "ns", [("team", "x")], "Opaque",
              [("cookie-secret", [])],
              [("cookie-secret", "ABCDEFGHIJKLMNOPQRSTUVWXYZabcdef")]⟩]
    ∧ (secrets.EnsureOAuthSecrets.body apiserver.client "ns" secrets.webui
        ⟨⟨[⟨"ado-webui-oauth-proxy", "ns", [("team", "x")], "Opaque",
              [("cookie-secret", [])], []⟩], []⟩, ⟨fun i => i, []⟩, []⟩).1.calls
      = [client.Call.get "ns" "ado-webui-oauth-proxy",
          client.Call.update
            ⟨"ado-webui-oauth-proxy", "ns", [("team", "x")], "Opaque",
              [("cookie-secret", [])],
              [("cookie-secret", "ABCDEFGHIJKLMNOPQRSTUVWXYZabcdef")]⟩] := by
  refine ⟨by decide, by decide, by decide, by decide, by decide⟩
